import Mathlib

/-!
Shallow embedding of the mini music player core: the playlist (play queue),
the audio engine, the LRC lyrics parser and the download/cache manager,
translated from the Python sources under `src/`, together with theorems
settling the specification claims about them.

Strings are modelled as `List Char`; machine integers as `Int`/`Nat`
(Python integers are unbounded, so no wrap-around modelling is needed);
the randomness of `random.shuffle` is modelled by passing the resulting
permutation as an explicit argument, constrained to be a permutation of
`List.range n` where the claim needs it.
-/

namespace MiniPlayer

/-! ### Play modes, from `src/config.py` (lines 55-58) -/

def PLAY_MODE_SEQUENCE : Nat := 0
def PLAY_MODE_LOOP_ONE : Nat := 1
def PLAY_MODE_LOOP_ALL : Nat := 2
def PLAY_MODE_SHUFFLE : Nat := 3

/-! ### Playlist, from `src/core/playlist.py`

The `Song` payload is irrelevant to every claim (the playlist never
inspects its fields), so the playlist is parametric in the song type. -/

structure Playlist (α : Type) where
  songs : List α
  current_index : Int
  play_mode : Nat
  shuffle_indices : List Nat
  shuffle_position : Int

/-- The dataclass defaults: empty songs, `_current_index = -1`,
sequence mode, empty shuffle state. -/
def Playlist.init {α : Type} : Playlist α :=
  ⟨[], -1, PLAY_MODE_SEQUENCE, [], 0⟩

/-- Source `Playlist._update_shuffle_indices`: regenerate the shuffle order.
`perm` stands for the result of `random.shuffle(list(range(len(songs))))`;
its validity (`perm.Perm (List.range n)`) is a hypothesis where needed. -/
def Playlist.update_shuffle_indices {α : Type} (p : Playlist α) (perm : List Nat) :
    Playlist α :=
  if p.songs.isEmpty then p
  else { p with shuffle_indices := perm, shuffle_position := 0 }

/-- Source `Playlist.add_song` -/
def Playlist.add_song {α : Type} (p : Playlist α) (s : α) (perm : List Nat) :
    Playlist α :=
  Playlist.update_shuffle_indices { p with songs := p.songs ++ [s] } perm

/-- Source `Playlist.add_songs` -/
def Playlist.add_songs {α : Type} (p : Playlist α) (ss : List α) (perm : List Nat) :
    Playlist α :=
  Playlist.update_shuffle_indices { p with songs := p.songs ++ ss } perm

/-- Source `Playlist.remove_song`: pop at `index` if in range, clamp
`_current_index` to the new length − 1 when it ran past the end,
then regenerate the shuffle order. -/
def Playlist.remove_song {α : Type} (p : Playlist α) (i : Int) (perm : List Nat) :
    Playlist α × Bool :=
  if 0 ≤ i ∧ i < (p.songs.length : Int) then
    let songs' := p.songs.eraseIdx i.toNat
    let ci := if p.current_index ≥ (songs'.length : Int)
              then (songs'.length : Int) - 1
              else p.current_index
    (Playlist.update_shuffle_indices { p with songs := songs', current_index := ci } perm,
     true)
  else (p, false)

/-- Source `Playlist.clear` (`_shuffle_position` is not reset by the source). -/
def Playlist.clear {α : Type} (p : Playlist α) : Playlist α :=
  { p with songs := [], current_index := -1, shuffle_indices := [] }

/-- Source `Playlist.get_current_song` -/
def Playlist.get_current_song {α : Type} (p : Playlist α) : Option α :=
  if 0 ≤ p.current_index ∧ p.current_index < (p.songs.length : Int) then
    p.songs.get? p.current_index.toNat
  else none

/-- Source `Playlist.set_current_index` -/
def Playlist.set_current_index {α : Type} (p : Playlist α) (i : Int) :
    Playlist α × Bool :=
  if 0 ≤ i ∧ i < (p.songs.length : Int) then
    ({ p with current_index := i }, true)
  else (p, false)

/-- Source `Playlist.next_song`: advance according to the play mode.  In the
shuffle branch the cursor is bumped, reset (with regeneration) when it
runs off the end, and `_current_index` is read off the shuffle order;
in sequence/loop-all the index is incremented, wrapping in loop-all and
clamping (returning `None`) in sequence mode. -/
def Playlist.next_song {α : Type} (p : Playlist α) (perm : List Nat) :
    Playlist α × Option α :=
  if p.songs.isEmpty then (p, none)
  else if p.play_mode = PLAY_MODE_LOOP_ONE then
    (p, p.get_current_song)
  else if p.play_mode = PLAY_MODE_SHUFFLE then
    let pos := p.shuffle_position + 1
    if pos ≥ (p.shuffle_indices.length : Int) then
      let q := Playlist.update_shuffle_indices { p with shuffle_position := 0 } perm
      let q' := { q with current_index := (q.shuffle_indices.getD q.shuffle_position.toNat 0 : Int) }
      (q', q'.get_current_song)
    else
      let q' := { p with shuffle_position := pos,
                         current_index := (p.shuffle_indices.getD pos.toNat 0 : Int) }
      (q', q'.get_current_song)
  else
    let ci := p.current_index + 1
    if ci ≥ (p.songs.length : Int) then
      if p.play_mode = PLAY_MODE_LOOP_ALL then
        let q := { p with current_index := 0 }
        (q, q.get_current_song)
      else
        ({ p with current_index := (p.songs.length : Int) - 1 }, none)
    else
      let q := { p with current_index := ci }
      (q, q.get_current_song)

/-- Source `Playlist.previous_song` -/
def Playlist.previous_song {α : Type} (p : Playlist α) : Playlist α × Option α :=
  if p.songs.isEmpty then (p, none)
  else if p.play_mode = PLAY_MODE_SHUFFLE then
    let pos0 := p.shuffle_position - 1
    let pos := if pos0 < 0 then (p.shuffle_indices.length : Int) - 1 else pos0
    let q := { p with shuffle_position := pos,
                      current_index := (p.shuffle_indices.getD pos.toNat 0 : Int) }
    (q, q.get_current_song)
  else
    let ci0 := p.current_index - 1
    let ci := if ci0 < 0 then
        (if p.play_mode = PLAY_MODE_LOOP_ALL then (p.songs.length : Int) - 1 else 0)
      else ci0
    let q := { p with current_index := ci }
    (q, q.get_current_song)

/-- Source `Playlist.set_play_mode` -/
def Playlist.set_play_mode {α : Type} (p : Playlist α) (mode : Nat) (perm : List Nat) :
    Playlist α :=
  if mode = PLAY_MODE_SEQUENCE ∨ mode = PLAY_MODE_LOOP_ONE ∨
     mode = PLAY_MODE_LOOP_ALL ∨ mode = PLAY_MODE_SHUFFLE then
    let q := { p with play_mode := mode }
    if mode = PLAY_MODE_SHUFFLE then Playlist.update_shuffle_indices q perm else q
  else p

/-- Source `Playlist.cycle_play_mode` -/
def Playlist.cycle_play_mode {α : Type} (p : Playlist α) (perm : List Nat) :
    Playlist α × Nat :=
  let m := (p.play_mode + 1) % 4
  let q := { p with play_mode := m }
  (if m = PLAY_MODE_SHUFFLE then Playlist.update_shuffle_indices q perm else q, m)

/-! #### Operation language over playlists (for the C8 invariant) -/

inductive PlOp (α : Type) where
  | add (s : α)
  | addMany (ss : List α)
  | remove (i : Int)
  | clearAll
  | setCurrent (i : Int)
  | next
  | prev
  | setMode (m : Nat)
  | cycleMode

def apply_op {α : Type} (p : Playlist α) (op : PlOp α) (perm : List Nat) : Playlist α :=
  match op with
  | .add s => p.add_song s perm
  | .addMany ss => p.add_songs ss perm
  | .remove i => (p.remove_song i perm).1
  | .clearAll => p.clear
  | .setCurrent i => (p.set_current_index i).1
  | .next => (p.next_song perm).1
  | .prev => p.previous_song.1
  | .setMode m => p.set_play_mode m perm
  | .cycleMode => (p.cycle_play_mode perm).1

def run_ops {α : Type} (p : Playlist α) : List (PlOp α × List Nat) → Playlist α
  | [] => p
  | (op, perm) :: rest => run_ops (apply_op p op perm) rest

/-- A run is valid when every supplied shuffle permutation really is a
permutation of `range n` for the song count at the point it is consumed
(which is what `random.shuffle(list(range(n)))` always produces). -/
def ValidRun {α : Type} (p : Playlist α) : List (PlOp α × List Nat) → Prop
  | [] => True
  | (op, perm) :: rest =>
      perm.Perm (List.range (apply_op p op perm).songs.length) ∧
      ValidRun (apply_op p op perm) rest

instance instValidRunDec {α : Type} :
    (p : Playlist α) → (l : List (PlOp α × List Nat)) → Decidable (ValidRun p l)
  | _, [] => .isTrue trivial
  | p, (op, perm) :: rest =>
      have _h2 : Decidable (ValidRun (apply_op p op perm) rest) :=
        instValidRunDec (apply_op p op perm) rest
      decidable_of_iff
        (perm.Perm (List.range (apply_op p op perm).songs.length) ∧
         ValidRun (apply_op p op perm) rest) Iff.rfl

/-- The index invariant of the claim: `_current_index` is −1 or in range. -/
def IndexOK {α : Type} (p : Playlist α) : Prop :=
  p.current_index = -1 ∨ (0 ≤ p.current_index ∧ p.current_index < (p.songs.length : Int))

/-- Auxiliary invariant about the shuffle state needed to push `IndexOK`
through the shuffle branches. -/
def ShuffleOK {α : Type} (p : Playlist α) : Prop :=
  p.songs ≠ [] →
    p.shuffle_indices.Perm (List.range p.songs.length) ∧
    0 ≤ p.shuffle_position ∧ p.shuffle_position < (p.shuffle_indices.length : Int)

def Inv {α : Type} (p : Playlist α) : Prop := IndexOK p ∧ ShuffleOK p

instance {α : Type} (p : Playlist α) : Decidable (IndexOK p) := by
  unfold IndexOK; infer_instance

instance {α : Type} (p : Playlist α) : Decidable (ShuffleOK p) :=
  match h : p.songs with
  | [] => .isTrue (fun hne => absurd h hne)
  | _ :: _ =>
    if h2 : p.shuffle_indices.Perm (List.range p.songs.length) ∧
        0 ≤ p.shuffle_position ∧ p.shuffle_position < (p.shuffle_indices.length : Int)
    then .isTrue (fun _ => h2)
    else .isFalse (fun hf => h2 (hf (by simp [h])))

instance {α : Type} (p : Playlist α) : Decidable (Inv p) := by
  unfold Inv; infer_instance

/-! #### C8: the `current_index` invariant -/

theorem update_shuffle_songs {α : Type} (p : Playlist α) (perm : List Nat) :
    (p.update_shuffle_indices perm).songs = p.songs := by
  unfold Playlist.update_shuffle_indices
  split <;> rfl

theorem update_shuffle_current_index {α : Type} (p : Playlist α) (perm : List Nat) :
    (p.update_shuffle_indices perm).current_index = p.current_index := by
  unfold Playlist.update_shuffle_indices
  split <;> rfl

theorem update_shuffle_eq_of_ne {α : Type} (p : Playlist α) (perm : List Nat)
    (hemp : p.songs.isEmpty = false) :
    p.update_shuffle_indices perm =
      { p with shuffle_indices := perm, shuffle_position := 0 } := by
  unfold Playlist.update_shuffle_indices
  rw [hemp]
  simp

theorem getD_lt_of_perm_range {l : List Nat} {n : Nat} (hp : l.Perm (List.range n))
    {i : Nat} (hi : i < l.length) : l.getD i 0 < n := by
  have h1 : l.getD i 0 = l.get ⟨i, hi⟩ := by
    rw [List.getD_eq_getElem?_getD, List.getElem?_eq_getElem hi]
    rfl
  rw [h1]
  exact List.mem_range.mp (hp.mem_iff.mp (List.get_mem l i hi))

theorem perm_range_length {l : List Nat} {n : Nat} (hp : l.Perm (List.range n)) :
    l.length = n := by
  simpa using hp.length_eq

theorem update_shuffle_ShuffleOK {α : Type} (p : Playlist α) (perm : List Nat)
    (hperm : perm.Perm (List.range p.songs.length)) :
    ShuffleOK (p.update_shuffle_indices perm) := by
  intro hne
  rw [update_shuffle_songs] at hne
  have hemp : p.songs.isEmpty = false := by
    simpa [List.isEmpty_iff] using hne
  rw [update_shuffle_eq_of_ne _ _ hemp]
  refine ⟨hperm, le_refl 0, ?_⟩
  show (0 : Int) < ((perm.length : Nat) : Int)
  rw [perm_range_length hperm]
  have : 0 < p.songs.length := List.length_pos.mpr hne
  exact_mod_cast this

theorem ShuffleOK_congr {α : Type} {p q : Playlist α}
    (hs : q.songs = p.songs) (hi : q.shuffle_indices = p.shuffle_indices)
    (hq : q.shuffle_position = p.shuffle_position) (h : ShuffleOK p) : ShuffleOK q := by
  intro hne
  rw [hs, hi, hq]
  exact h (hs ▸ hne)

theorem inv_add_song {α : Type} (p : Playlist α) (s : α) (perm : List Nat)
    (hp : Inv p) (hperm : perm.Perm (List.range (p.songs.length + 1))) :
    Inv (p.add_song s perm) := by
  obtain ⟨hidx, _⟩ := hp
  constructor
  · have hs : (p.add_song s perm).songs = p.songs ++ [s] :=
      update_shuffle_songs _ _
    have hc : (p.add_song s perm).current_index = p.current_index :=
      update_shuffle_current_index _ _
    unfold IndexOK at hidx ⊢
    rw [hs, hc, List.length_append]
    rcases hidx with h | h
    · exact .inl h
    · right
      constructor
      · exact h.1
      · push_cast
        push_cast at h
        omega
  · exact update_shuffle_ShuffleOK _ _ (by simpa using hperm)

theorem inv_add_songs {α : Type} (p : Playlist α) (ss : List α) (perm : List Nat)
    (hp : Inv p) (hperm : perm.Perm (List.range (p.songs.length + ss.length))) :
    Inv (p.add_songs ss perm) := by
  obtain ⟨hidx, _⟩ := hp
  constructor
  · have hs : (p.add_songs ss perm).songs = p.songs ++ ss :=
      update_shuffle_songs _ _
    have hc : (p.add_songs ss perm).current_index = p.current_index :=
      update_shuffle_current_index _ _
    unfold IndexOK at hidx ⊢
    rw [hs, hc, List.length_append]
    rcases hidx with h | h
    · exact .inl h
    · right
      refine ⟨h.1, ?_⟩
      push_cast
      push_cast at h
      omega
  · exact update_shuffle_ShuffleOK _ _ (by simpa using hperm)

theorem inv_remove_song {α : Type} (p : Playlist α) (i : Int) (perm : List Nat)
    (hp : Inv p) (hperm : perm.Perm (List.range (p.remove_song i perm).1.songs.length)) :
    Inv (p.remove_song i perm).1 := by
  obtain ⟨hidx, hsh⟩ := hp
  unfold Playlist.remove_song at hperm ⊢
  split_ifs at hperm ⊢ with h
  · dsimp only at hperm ⊢
    rw [update_shuffle_songs] at hperm
    constructor
    · have hs := update_shuffle_songs
        { p with songs := p.songs.eraseIdx i.toNat,
                 current_index := if p.current_index ≥ ((p.songs.eraseIdx i.toNat).length : Int)
                                  then ((p.songs.eraseIdx i.toNat).length : Int) - 1
                                  else p.current_index } perm
      have hc := update_shuffle_current_index
        { p with songs := p.songs.eraseIdx i.toNat,
                 current_index := if p.current_index ≥ ((p.songs.eraseIdx i.toNat).length : Int)
                                  then ((p.songs.eraseIdx i.toNat).length : Int) - 1
                                  else p.current_index } perm
      unfold IndexOK at hidx ⊢
      rw [hs, hc]
      dsimp only
      split_ifs with h2
      · rcases Nat.eq_zero_or_pos (p.songs.eraseIdx i.toNat).length with h3 | h3
        · left
          rw [h3]
          rfl
        · right
          constructor
          · omega
          · omega
      · rcases hidx with h3 | h3
        · exact .inl h3
        · right
          push_cast at h2
          exact ⟨h3.1, by omega⟩
    · exact update_shuffle_ShuffleOK _ _ hperm
  · exact ⟨hidx, hsh⟩

theorem inv_clear {α : Type} (p : Playlist α) (hp : Inv p) : Inv p.clear := by
  constructor
  · exact .inl rfl
  · intro hne
    exact absurd rfl hne

theorem inv_set_current {α : Type} (p : Playlist α) (i : Int) (hp : Inv p) :
    Inv (p.set_current_index i).1 := by
  obtain ⟨hidx, hsh⟩ := hp
  unfold Playlist.set_current_index
  split_ifs with h
  · exact ⟨.inr h, ShuffleOK_congr rfl rfl rfl hsh⟩
  · exact ⟨hidx, hsh⟩

theorem inv_set_mode {α : Type} (p : Playlist α) (m : Nat) (perm : List Nat)
    (hp : Inv p) (hperm : perm.Perm (List.range p.songs.length)) :
    Inv (p.set_play_mode m perm) := by
  obtain ⟨hidx, hsh⟩ := hp
  unfold Playlist.set_play_mode
  split_ifs with h1 h2
  · constructor
    · have hc := update_shuffle_current_index { p with play_mode := m } perm
      have hs := update_shuffle_songs { p with play_mode := m } perm
      unfold IndexOK at hidx ⊢
      rw [hc, hs]
      exact hidx
    · exact update_shuffle_ShuffleOK _ _ hperm
  · exact ⟨hidx, ShuffleOK_congr rfl rfl rfl hsh⟩
  · exact ⟨hidx, hsh⟩

theorem inv_cycle_mode {α : Type} (p : Playlist α) (perm : List Nat)
    (hp : Inv p) (hperm : perm.Perm (List.range p.songs.length)) :
    Inv (p.cycle_play_mode perm).1 := by
  obtain ⟨hidx, hsh⟩ := hp
  unfold Playlist.cycle_play_mode
  dsimp only
  split_ifs with h1
  · constructor
    · have hc := update_shuffle_current_index { p with play_mode := (p.play_mode + 1) % 4 } perm
      have hs := update_shuffle_songs { p with play_mode := (p.play_mode + 1) % 4 } perm
      unfold IndexOK at hidx ⊢
      rw [hc, hs]
      exact hidx
    · exact update_shuffle_ShuffleOK _ _ hperm
  · exact ⟨hidx, ShuffleOK_congr rfl rfl rfl hsh⟩

theorem next_song_empty {α : Type} (p : Playlist α) (perm : List Nat)
    (hemp : p.songs.isEmpty = true) : p.next_song perm = (p, none) := by
  rw [Playlist.next_song, if_pos hemp]

theorem next_song_loop_one {α : Type} (p : Playlist α) (perm : List Nat)
    (hemp : p.songs.isEmpty = false) (hm : p.play_mode = PLAY_MODE_LOOP_ONE) :
    p.next_song perm = (p, p.get_current_song) := by
  rw [Playlist.next_song, if_neg (by simp [hemp]), if_pos hm]

theorem next_song_shuffle_wrap {α : Type} (p : Playlist α) (perm : List Nat)
    (hemp : p.songs.isEmpty = false) (hm : p.play_mode = PLAY_MODE_SHUFFLE)
    (hw : p.shuffle_position + 1 ≥ (p.shuffle_indices.length : Int)) :
    p.next_song perm =
      ((⟨p.songs, ((perm.getD 0 0 : Nat) : Int), p.play_mode, perm, 0⟩ : Playlist α),
       (⟨p.songs, ((perm.getD 0 0 : Nat) : Int), p.play_mode, perm, 0⟩ : Playlist α).get_current_song) := by
  have hm1 : ¬ p.play_mode = PLAY_MODE_LOOP_ONE := by
    rw [hm]
    decide
  rw [Playlist.next_song, if_neg (by simp [hemp]), if_neg hm1, if_pos hm]
  dsimp only
  rw [if_pos hw, update_shuffle_eq_of_ne ({ p with shuffle_position := (0 : Int) }) perm hemp]
  rfl

theorem next_song_shuffle_step {α : Type} (p : Playlist α) (perm : List Nat)
    (hemp : p.songs.isEmpty = false) (hm : p.play_mode = PLAY_MODE_SHUFFLE)
    (hw : ¬ (p.shuffle_position + 1 ≥ (p.shuffle_indices.length : Int))) :
    p.next_song perm =
      ({ p with
          shuffle_position := p.shuffle_position + 1,
          current_index :=
            ((p.shuffle_indices.getD (p.shuffle_position + 1).toNat 0 : Nat) : Int) },
       ({ p with
          shuffle_position := p.shuffle_position + 1,
          current_index :=
            ((p.shuffle_indices.getD (p.shuffle_position + 1).toNat 0 : Nat) : Int) } :
          Playlist α).get_current_song) := by
  have hm1 : ¬ p.play_mode = PLAY_MODE_LOOP_ONE := by
    rw [hm]
    decide
  rw [Playlist.next_song, if_neg (by simp [hemp]), if_neg hm1, if_pos hm]
  dsimp only
  rw [if_neg hw]

theorem next_song_not_shuffle {α : Type} (p : Playlist α) (perm : List Nat)
    (hemp : p.songs.isEmpty = false)
    (hm1 : ¬ p.play_mode = PLAY_MODE_LOOP_ONE)
    (hm3 : ¬ p.play_mode = PLAY_MODE_SHUFFLE) :
    p.next_song perm =
      (if p.current_index + 1 ≥ (p.songs.length : Int) then
        (if p.play_mode = PLAY_MODE_LOOP_ALL then
          ({ p with current_index := 0 },
           ({ p with current_index := 0 } : Playlist α).get_current_song)
        else
          ({ p with current_index := (p.songs.length : Int) - 1 }, none))
      else
        ({ p with current_index := p.current_index + 1 },
         ({ p with current_index := p.current_index + 1 } : Playlist α).get_current_song)) := by
  rw [Playlist.next_song, if_neg (by simp [hemp]), if_neg hm1, if_neg hm3]

theorem inv_next_song {α : Type} (p : Playlist α) (perm : List Nat)
    (hp : Inv p) (hperm : perm.Perm (List.range p.songs.length)) :
    Inv (p.next_song perm).1 := by
  obtain ⟨hidx, hsh⟩ := hp
  by_cases hemp : p.songs.isEmpty
  · rw [next_song_empty _ _ hemp]
    exact ⟨hidx, hsh⟩
  · rw [Bool.not_eq_true] at hemp
    have hne : p.songs ≠ [] := by simpa [List.isEmpty_iff] using hemp
    have hlen : 0 < p.songs.length := List.length_pos.mpr hne
    by_cases hm1 : p.play_mode = PLAY_MODE_LOOP_ONE
    · rw [next_song_loop_one _ _ hemp hm1]
      exact ⟨hidx, hsh⟩
    · by_cases hm3 : p.play_mode = PLAY_MODE_SHUFFLE
      · by_cases hw : p.shuffle_position + 1 ≥ (p.shuffle_indices.length : Int)
        · rw [next_song_shuffle_wrap _ _ hemp hm3 hw]
          dsimp only
          have hpl : 0 < perm.length := by
            rw [perm_range_length hperm]
            exact hlen
          have h3 : ((perm.getD 0 0 : Nat) : Int) < ((p.songs.length : Nat) : Int) := by
            exact_mod_cast getD_lt_of_perm_range hperm hpl
          have h4 : (0 : Int) < ((perm.length : Nat) : Int) := by
            exact_mod_cast hpl
          exact ⟨.inr ⟨Int.ofNat_nonneg _, h3⟩, fun _ => ⟨hperm, le_refl 0, h4⟩⟩
        · rw [next_song_shuffle_step _ _ hemp hm3 hw]
          dsimp only
          obtain ⟨hpm, hpos0, hposlt⟩ := hsh hne
          have hi : (p.shuffle_position + 1).toNat < p.shuffle_indices.length := by
            omega
          have h3 : ((p.shuffle_indices.getD (p.shuffle_position + 1).toNat 0 : Nat) : Int)
              < ((p.songs.length : Nat) : Int) := by
            exact_mod_cast getD_lt_of_perm_range hpm hi
          have h4 : (0 : Int) ≤ p.shuffle_position + 1 := by omega
          have h5 : p.shuffle_position + 1 < (p.shuffle_indices.length : Int) := by omega
          exact ⟨.inr ⟨Int.ofNat_nonneg _, h3⟩, fun _ => ⟨hpm, h4, h5⟩⟩
      · rw [next_song_not_shuffle _ _ hemp hm1 hm3]
        have hlenz : (0 : Int) < (p.songs.length : Int) := by exact_mod_cast hlen
        split_ifs with hc hla
        · exact ⟨.inr ⟨le_refl 0, hlenz⟩, ShuffleOK_congr rfl rfl rfl hsh⟩
        · have h1 : (0 : Int) ≤ (p.songs.length : Int) - 1 := by omega
          have h2 : (p.songs.length : Int) - 1 < (p.songs.length : Int) := by omega
          exact ⟨.inr ⟨h1, h2⟩, ShuffleOK_congr rfl rfl rfl hsh⟩
        · push_neg at hc
          have h1 : (0 : Int) ≤ p.current_index + 1 := by
            rcases hidx with h | h <;> omega
          exact ⟨.inr ⟨h1, hc⟩, ShuffleOK_congr rfl rfl rfl hsh⟩

theorem previous_song_empty {α : Type} (p : Playlist α)
    (hemp : p.songs.isEmpty = true) : p.previous_song = (p, none) := by
  rw [Playlist.previous_song, if_pos hemp]

theorem previous_song_shuffle {α : Type} (p : Playlist α)
    (hemp : p.songs.isEmpty = false) (hm : p.play_mode = PLAY_MODE_SHUFFLE) :
    p.previous_song =
      ({ p with
          shuffle_position :=
            (if p.shuffle_position - 1 < 0 then (p.shuffle_indices.length : Int) - 1
             else p.shuffle_position - 1),
          current_index :=
            ((p.shuffle_indices.getD
              (if p.shuffle_position - 1 < 0 then (p.shuffle_indices.length : Int) - 1
               else p.shuffle_position - 1).toNat 0 : Nat) : Int) },
       ({ p with
          shuffle_position :=
            (if p.shuffle_position - 1 < 0 then (p.shuffle_indices.length : Int) - 1
             else p.shuffle_position - 1),
          current_index :=
            ((p.shuffle_indices.getD
              (if p.shuffle_position - 1 < 0 then (p.shuffle_indices.length : Int) - 1
               else p.shuffle_position - 1).toNat 0 : Nat) : Int) } :
          Playlist α).get_current_song) := by
  rw [Playlist.previous_song, if_neg (by simp [hemp]), if_pos hm]

theorem previous_song_not_shuffle {α : Type} (p : Playlist α)
    (hemp : p.songs.isEmpty = false) (hm : ¬ p.play_mode = PLAY_MODE_SHUFFLE) :
    p.previous_song =
      ({ p with
          current_index :=
            (if p.current_index - 1 < 0 then
              (if p.play_mode = PLAY_MODE_LOOP_ALL then (p.songs.length : Int) - 1 else 0)
             else p.current_index - 1) },
       ({ p with
          current_index :=
            (if p.current_index - 1 < 0 then
              (if p.play_mode = PLAY_MODE_LOOP_ALL then (p.songs.length : Int) - 1 else 0)
             else p.current_index - 1) } : Playlist α).get_current_song) := by
  rw [Playlist.previous_song, if_neg (by simp [hemp]), if_neg hm]

theorem inv_previous_song {α : Type} (p : Playlist α) (hp : Inv p) :
    Inv p.previous_song.1 := by
  obtain ⟨hidx, hsh⟩ := hp
  by_cases hemp : p.songs.isEmpty
  · rw [previous_song_empty _ hemp]
    exact ⟨hidx, hsh⟩
  · rw [Bool.not_eq_true] at hemp
    have hne : p.songs ≠ [] := by simpa [List.isEmpty_iff] using hemp
    have hlen : 0 < p.songs.length := List.length_pos.mpr hne
    by_cases hm : p.play_mode = PLAY_MODE_SHUFFLE
    · rw [previous_song_shuffle _ hemp hm]
      dsimp only
      obtain ⟨hpm, hpos0, hposlt⟩ := hsh hne
      have hi : (if p.shuffle_position - 1 < 0 then (p.shuffle_indices.length : Int) - 1
          else p.shuffle_position - 1).toNat < p.shuffle_indices.length := by
        have hil : 0 < p.shuffle_indices.length := by omega
        split_ifs with hc <;> omega
      have h3 : ((p.shuffle_indices.getD
            (if p.shuffle_position - 1 < 0 then (p.shuffle_indices.length : Int) - 1
             else p.shuffle_position - 1).toNat 0 : Nat) : Int)
          < ((p.songs.length : Nat) : Int) := by
        exact_mod_cast getD_lt_of_perm_range hpm hi
      have h4 : (0 : Int) ≤ (if p.shuffle_position - 1 < 0 then
          (p.shuffle_indices.length : Int) - 1 else p.shuffle_position - 1) := by
        split_ifs with hc <;> omega
      have h5 : (if p.shuffle_position - 1 < 0 then (p.shuffle_indices.length : Int) - 1
          else p.shuffle_position - 1) < (p.shuffle_indices.length : Int) := by
        split_ifs with hc <;> omega
      exact ⟨.inr ⟨Int.ofNat_nonneg _, h3⟩, fun _ => ⟨hpm, h4, h5⟩⟩
    · rw [previous_song_not_shuffle _ hemp hm]
      dsimp only
      have hlenz : (0 : Int) < (p.songs.length : Int) := by exact_mod_cast hlen
      have h : (0 : Int) ≤ (if p.current_index - 1 < 0 then
            (if p.play_mode = PLAY_MODE_LOOP_ALL then (p.songs.length : Int) - 1 else 0)
           else p.current_index - 1) ∧
          (if p.current_index - 1 < 0 then
            (if p.play_mode = PLAY_MODE_LOOP_ALL then (p.songs.length : Int) - 1 else 0)
           else p.current_index - 1) < (p.songs.length : Int) := by
        rcases hidx with h | h <;> split_ifs with hc hla <;>
          constructor <;> omega
      exact ⟨.inr h, ShuffleOK_congr rfl rfl rfl hsh⟩

theorem next_song_songs {α : Type} (p : Playlist α) (perm : List Nat) :
    (p.next_song perm).1.songs = p.songs := by
  by_cases hemp : p.songs.isEmpty
  · rw [next_song_empty _ _ hemp]
  · rw [Bool.not_eq_true] at hemp
    by_cases hm1 : p.play_mode = PLAY_MODE_LOOP_ONE
    · rw [next_song_loop_one _ _ hemp hm1]
    · by_cases hm3 : p.play_mode = PLAY_MODE_SHUFFLE
      · by_cases hw : p.shuffle_position + 1 ≥ (p.shuffle_indices.length : Int)
        · rw [next_song_shuffle_wrap _ _ hemp hm3 hw]
        · rw [next_song_shuffle_step _ _ hemp hm3 hw]
      · rw [next_song_not_shuffle _ _ hemp hm1 hm3]
        split_ifs <;> rfl

theorem set_play_mode_songs {α : Type} (p : Playlist α) (m : Nat) (perm : List Nat) :
    (p.set_play_mode m perm).songs = p.songs := by
  unfold Playlist.set_play_mode
  split_ifs <;> first | rfl | exact update_shuffle_songs _ _

theorem cycle_play_mode_songs {α : Type} (p : Playlist α) (perm : List Nat) :
    (p.cycle_play_mode perm).1.songs = p.songs := by
  unfold Playlist.cycle_play_mode
  dsimp only
  split_ifs <;> first | rfl | exact update_shuffle_songs _ _

theorem inv_apply_op {α : Type} (p : Playlist α) (op : PlOp α) (perm : List Nat)
    (hp : Inv p) (hperm : perm.Perm (List.range (apply_op p op perm).songs.length)) :
    Inv (apply_op p op perm) := by
  cases op with
  | add s =>
      refine inv_add_song p s perm hp ?_
      have hs : (apply_op p (.add s) perm).songs = p.songs ++ [s] :=
        update_shuffle_songs _ _
      rw [hs, List.length_append] at hperm
      simpa using hperm
  | addMany ss =>
      refine inv_add_songs p ss perm hp ?_
      have hs : (apply_op p (.addMany ss) perm).songs = p.songs ++ ss :=
        update_shuffle_songs _ _
      rw [hs, List.length_append] at hperm
      simpa using hperm
  | remove i => exact inv_remove_song p i perm hp hperm
  | clearAll => exact inv_clear p hp
  | setCurrent i => exact inv_set_current p i hp
  | next =>
      refine inv_next_song p perm hp ?_
      rwa [show (apply_op p .next perm).songs = p.songs from next_song_songs p perm]
        at hperm
  | prev => exact inv_previous_song p hp
  | setMode m =>
      refine inv_set_mode p m perm hp ?_
      rwa [show (apply_op p (.setMode m) perm).songs = p.songs from
        set_play_mode_songs p m perm] at hperm
  | cycleMode =>
      refine inv_cycle_mode p perm hp ?_
      rwa [show (apply_op p .cycleMode perm).songs = p.songs from
        cycle_play_mode_songs p perm] at hperm

theorem inv_run_ops {α : Type} (l : List (PlOp α × List Nat)) :
    ∀ (p : Playlist α), Inv p → ValidRun p l → Inv (run_ops p l) := by
  induction l with
  | nil => exact fun p hp _ => hp
  | cons hd tl ih =>
      intro p hp hv
      obtain ⟨hperm, hv'⟩ := hv
      exact ih _ (inv_apply_op p hd.1 hd.2 hp hperm) hv'

theorem inv_init {α : Type} : Inv (Playlist.init : Playlist α) := by
  constructor
  · exact .inl rfl
  · intro hne
    exact absurd rfl hne

/-- C8: after every sequence of playlist operations (with the shuffle
permutations being genuine permutations, as `random.shuffle` produces),
`current_index` is −1 or a valid index, and it is −1 whenever the queue
is empty. -/
theorem current_index_always_in_bounds (l : List (PlOp Nat × List Nat))
    (hl : ValidRun (Playlist.init : Playlist Nat) l) :
    IndexOK (run_ops Playlist.init l) ∧
    ((run_ops Playlist.init l).songs = [] →
      (run_ops Playlist.init l).current_index = -1) := by
  have h := inv_run_ops l Playlist.init inv_init hl
  refine ⟨h.1, fun hemp => ?_⟩
  rcases h.1 with h2 | h2
  · exact h2
  · rw [hemp] at h2
    dsimp at h2
    omega

/-- C8 witness: a concrete run that adds three songs, selects the last
one, removes the currently playing index, and still has a valid index. -/
theorem current_index_always_in_bounds_witness :
    ValidRun (Playlist.init : Playlist Nat)
      [(.add 10, [0]), (.add 11, [1, 0]), (.add 12, [2, 0, 1]),
       (.setCurrent 2, [0, 1, 2]), (.remove 2, [1, 0])] ∧
    (IndexOK (run_ops Playlist.init
      [(.add 10, [0]), (.add 11, [1, 0]), (.add 12, [2, 0, 1]),
       (.setCurrent 2, [0, 1, 2]), (.remove 2, [1, 0])]) ∧
     ((run_ops (Playlist.init : Playlist Nat)
      [(.add 10, [0]), (.add 11, [1, 0]), (.add 12, [2, 0, 1]),
       (.setCurrent 2, [0, 1, 2]), (.remove 2, [1, 0])]).songs = [] →
      (run_ops (Playlist.init : Playlist Nat)
      [(.add 10, [0]), (.add 11, [1, 0]), (.add 12, [2, 0, 1]),
       (.setCurrent 2, [0, 1, 2]), (.remove 2, [1, 0])]).current_index = -1)) :=
  ⟨by decide, current_index_always_in_bounds _ (by decide)⟩

/-! #### C6: sequential advance -/

/-- The playlist of the claim: `n` songs, Sequential mode, current index 0. -/
def seq_start {α : Type} (songs : List α) : Playlist α :=
  ⟨songs, 0, PLAY_MODE_SEQUENCE, [], 0⟩

/-- Source `k` successive `next_song` calls (the advanced state; returned songs are
read off with one more call). -/
def adv_iter {α : Type} (p : Playlist α) : Nat → Playlist α
  | 0 => p
  | k + 1 => ((adv_iter p k).next_song []).1

theorem next_song_seq {α : Type} (p : Playlist α) (perm : List Nat)
    (hne : p.songs.isEmpty = false)
    (hmode : p.play_mode = PLAY_MODE_SEQUENCE) :
    p.next_song perm =
      (if p.current_index + 1 ≥ (p.songs.length : Int) then
        ({ p with current_index := (p.songs.length : Int) - 1 }, none)
      else
        ({ p with current_index := p.current_index + 1 },
         ({ p with current_index := p.current_index + 1 } : Playlist α).get_current_song)) := by
  rw [Playlist.next_song]
  simp only [hne, hmode, PLAY_MODE_SEQUENCE, PLAY_MODE_LOOP_ONE, PLAY_MODE_SHUFFLE,
    PLAY_MODE_LOOP_ALL]
  norm_num

theorem adv_iter_seq_state {α : Type} (songs : List α) (hne : songs ≠ []) (k : Nat) :
    adv_iter (seq_start songs) k =
      ⟨songs, ((min k (songs.length - 1) : Nat) : Int), PLAY_MODE_SEQUENCE, [], 0⟩ := by
  have hlen : 1 ≤ songs.length := List.length_pos.mpr hne
  have hemp : songs.isEmpty = false := by
    cases songs with
    | nil => exact absurd rfl hne
    | cons a l => rfl
  induction k with
  | zero => simp [adv_iter, seq_start]
  | succ k ih =>
      rw [adv_iter, ih, next_song_seq _ _ hemp rfl]
      dsimp only
      split_ifs with h
      · have : ((songs.length : Int)) - 1 = ((min (k + 1) (songs.length - 1) : Nat) : Int) := by
          push_cast at h ⊢
          omega
        simp only [this]
      · have : ((min k (songs.length - 1) : Nat) : Int) + 1
            = ((min (k + 1) (songs.length - 1) : Nat) : Int) := by
          push_cast at h ⊢
          omega
        simp only [this]

/-- C6 counterexample (claim as stated is false): a 2-song queue in
Sequential mode with current index 0 yields a track on the first
`next_song` call but `none` already on the second call, whereas the claim
requires each of the first `n = 2` calls to return a track. -/
theorem sequential_advance_cex :
    ((seq_start [10, 11] : Playlist Nat).next_song []).2 = some 11 ∧
    (((seq_start [10, 11] : Playlist Nat).next_song []).1.next_song []).2 = none := by
  constructor <;> rfl

/-- C6 (amended): for a queue of length n in Sequential mode starting at
index 0, the first n−1 `next_song` calls each return a track, and the
n-th and every later call returns none (the index stays clamped at n−1,
no wrap). The (k+1)-st call is the one performed on `adv_iter … k`. -/
theorem sequential_advance_returns {α : Type} (songs : List α) (hne : songs ≠ [])
    (k : Nat) :
    (k + 1 < songs.length →
      ((adv_iter (seq_start songs) k).next_song []).2.isSome = true) ∧
    (songs.length ≤ k + 1 →
      ((adv_iter (seq_start songs) k).next_song []).2 = none) := by
  have hlen : 1 ≤ songs.length := List.length_pos.mpr hne
  have hemp : songs.isEmpty = false := by
    cases songs with
    | nil => exact absurd rfl hne
    | cons a l => rfl
  rw [adv_iter_seq_state songs hne k, next_song_seq _ _ hemp rfl]
  dsimp only
  constructor
  · intro hk
    rw [if_neg (by push_cast; omega)]
    dsimp only [Playlist.get_current_song]
    rw [if_pos (by constructor <;> [push_cast; push_cast] <;> omega)]
    have htn : ((((min k (songs.length - 1) : Nat) : Int) + 1)).toNat = k + 1 := by
      push_cast
      omega
    rw [htn, List.get?_eq_get hk]
    rfl
  · intro hk
    rw [if_pos (by push_cast; omega)]

/-- C6 witness: instantiating the amended theorem on a length-3 queue at
the 2nd call (returns a track) and stating the 3rd returns none via the
theorem again. -/
theorem sequential_advance_returns_witness :
    (([10, 11, 12] : List Nat) ≠ [] ∧ 1 + 1 < ([10, 11, 12] : List Nat).length ∧
      ((adv_iter (seq_start [10, 11, 12]) 1).next_song []).2.isSome = true) ∧
    (([10, 11, 12] : List Nat).length ≤ 2 + 1 ∧
      ((adv_iter (seq_start [10, 11, 12]) 2).next_song []).2 = none) :=
  ⟨⟨by decide, by decide,
    (sequential_advance_returns [10, 11, 12] (by decide) 1).1 (by decide)⟩,
   ⟨by decide,
    (sequential_advance_returns [10, 11, 12] (by decide) 2).2 (by decide)⟩⟩

/-! ### Audio engine, from `src/core/audio_engine.py`

Modelled state: `_current_path`, `_volume`, whether `_on_end_callback` is
set, `_is_playing`, `_paused`, and the selected backend.  The wall-clock
fields (`_start_time`, `_pause_time`, `_duration_ms`) play no role in any
claim and are omitted.  The filesystem (`Path(...).exists()`), the pygame
`mixer.music.load` success and the VLC `play()` return code are modelled
as explicit parameters. -/

inductive Backend where
  | vlc
  | pygame
deriving DecidableEq

structure AudioEngine where
  current_path : Option (List Char)
  volume : Int
  has_end_callback : Bool
  is_playing : Bool
  paused : Bool
  backend : Backend

/-- Source `AudioEngine.__init__`: volume 70, nothing loaded, no callback, idle. -/
def AudioEngine.init (b : Backend) : AudioEngine :=
  ⟨none, 70, false, false, false, b⟩

/-- Source `AudioEngine._on_vlc_end` (lines 81-85): set `_is_playing = False` and
invoke the registered callback unconditionally; the returned Bool records
whether the end handler was invoked. -/
def on_vlc_end (e : AudioEngine) : AudioEngine × Bool :=
  ({ e with is_playing := false }, e.has_end_callback)

/-- One iteration of the pygame `check_end` polling loop started by
`AudioEngine._start_end_check` (lines 142-156); `busy` is the value of
`pygame.mixer.music.get_busy()`. -/
def pygame_end_poll (e : AudioEngine) (busy : Bool) : AudioEngine × Bool :=
  if e.is_playing ∧ ¬ e.paused then
    if ¬ busy then ({ e with is_playing := false }, e.has_end_callback)
    else (e, false)
  else (e, false)

/-- Source `AudioEngine.stop` -/
def AudioEngine.stop (e : AudioEngine) : AudioEngine :=
  { e with is_playing := false, paused := false }

def http_chars : List Char := ['h', 't', 't', 'p', ':', '/', '/']

def https_chars : List Char := ['h', 't', 't', 'p', 's', ':', '/', '/']

/-- Source `file_path.startswith("http://") or file_path.startswith("https://")` -/
def is_url (p : List Char) : Bool :=
  http_chars.isPrefixOf p || https_chars.isPrefixOf p

/-- Source `AudioEngine.load` (lines 87-115): stop first, fail on a missing local
path before assigning `_current_path`, then hand to the backend (the
pygame backend rejects URLs after `_current_path` is already assigned;
`mixer_ok` models whether `pygame.mixer.music.load` raises). -/
def AudioEngine.load (fileExists mixer_ok : List Char → Bool) (e : AudioEngine)
    (file_path : List Char) : AudioEngine × Bool :=
  let e1 := e.stop
  if is_url file_path = false ∧ fileExists file_path = false then (e1, false)
  else
    let e2 := { e1 with current_path := some file_path }
    match e.backend with
    | .vlc => (e2, true)
    | .pygame =>
        if is_url file_path then (e2, false) else (e2, mixer_ok file_path)

/-- Source `AudioEngine.play` (`play_ok` models `self._player.play() == 0`). -/
def AudioEngine.play (play_ok : Bool) (e : AudioEngine) : AudioEngine × Bool :=
  match e.current_path with
  | none => (e, false)
  | some _ =>
      match e.backend with
      | .vlc => ({ e with is_playing := true, paused := false }, play_ok)
      | .pygame => ({ e with is_playing := true, paused := false }, true)

/-- Source `AudioEngine.pause` -/
def AudioEngine.pause (e : AudioEngine) : AudioEngine :=
  { e with paused := true }

/-- Source `AudioEngine.toggle_pause` -/
def AudioEngine.toggle_pause (e : AudioEngine) : AudioEngine :=
  if e.paused then { e with paused := false }
  else if e.is_playing then e.pause
  else e

/-- Source `AudioEngine.set_volume` (lines 298-304): clamp into 0..100. -/
def AudioEngine.set_volume (e : AudioEngine) (volume : Int) : AudioEngine :=
  { e with volume := max 0 (min 100 volume) }

/-- Source `AudioEngine.get_volume` -/
def AudioEngine.get_volume (e : AudioEngine) : Int := e.volume

/-- Source `AudioEngine.set_on_end_callback` -/
def AudioEngine.set_on_end_callback (e : AudioEngine) : AudioEngine :=
  { e with has_end_callback := true }

inductive EngOp where
  | load (path : List Char)
  | play (ok : Bool)
  | pause
  | stop
  | togglePause
  | setVolume (v : Int)
  | vlcEnd
  | pygamePoll (busy : Bool)
  | setOnEnd

def apply_eng_op (fileExists mixer_ok : List Char → Bool) (e : AudioEngine) :
    EngOp → AudioEngine
  | .load p => (AudioEngine.load fileExists mixer_ok e p).1
  | .play ok => (e.play ok).1
  | .pause => e.pause
  | .stop => e.stop
  | .togglePause => e.toggle_pause
  | .setVolume v => e.set_volume v
  | .vlcEnd => (on_vlc_end e).1
  | .pygamePoll b => (pygame_end_poll e b).1
  | .setOnEnd => e.set_on_end_callback

def run_eng (fileExists mixer_ok : List Char → Bool) (e : AudioEngine) :
    List EngOp → AudioEngine
  | [] => e
  | op :: rest => run_eng fileExists mixer_ok (apply_eng_op fileExists mixer_ok e op) rest

theorem load_fst_volume (fileExists mixer_ok : List Char → Bool) (e : AudioEngine)
    (p : List Char) :
    (e.load fileExists mixer_ok p).1.volume = e.volume := by
  unfold AudioEngine.load
  dsimp only
  cases hB : e.backend <;>
    simp only [hB] <;>
    split_ifs <;>
    simp [AudioEngine.stop]

theorem play_fst_volume (ok : Bool) (e : AudioEngine) :
    (e.play ok).1.volume = e.volume := by
  unfold AudioEngine.play
  cases hp : e.current_path
  · simp [hp]
  · cases hB : e.backend <;> simp [hp, hB]

theorem toggle_pause_volume (e : AudioEngine) :
    e.toggle_pause.volume = e.volume := by
  unfold AudioEngine.toggle_pause AudioEngine.pause
  split_ifs <;> rfl

theorem pygame_end_poll_volume (e : AudioEngine) (b : Bool) :
    (pygame_end_poll e b).1.volume = e.volume := by
  unfold pygame_end_poll
  split_ifs <;> rfl

theorem apply_eng_op_volume_preserved (fileExists mixer_ok : List Char → Bool)
    (e : AudioEngine) (op : EngOp)
    (h : 0 ≤ e.volume ∧ e.volume ≤ 100) :
    0 ≤ (apply_eng_op fileExists mixer_ok e op).volume ∧
    (apply_eng_op fileExists mixer_ok e op).volume ≤ 100 := by
  cases op with
  | load p =>
      have hv : (apply_eng_op fileExists mixer_ok e (EngOp.load p)).volume = e.volume :=
        load_fst_volume fileExists mixer_ok e p
      rw [hv]
      exact h
  | play ok =>
      have hv : (apply_eng_op fileExists mixer_ok e (EngOp.play ok)).volume = e.volume :=
        play_fst_volume ok e
      rw [hv]
      exact h
  | pause => exact h
  | stop => exact h
  | togglePause =>
      have hv : (apply_eng_op fileExists mixer_ok e EngOp.togglePause).volume = e.volume :=
        toggle_pause_volume e
      rw [hv]
      exact h
  | setVolume v =>
      show 0 ≤ max 0 (min 100 v) ∧ max 0 (min 100 v) ≤ 100
      omega
  | vlcEnd => exact h
  | pygamePoll b =>
      have hv : (apply_eng_op fileExists mixer_ok e (EngOp.pygamePoll b)).volume = e.volume :=
        pygame_end_poll_volume e b
      rw [hv]
      exact h
  | setOnEnd => exact h

/-- C10: the engine's stored volume is always within 0..100 after any
sequence of operations from a fresh engine (on either backend), including
`set_volume` calls made while nothing is loaded — `set_volume` clamps its
integer argument and is the only writer of `_volume` after `__init__`
sets it to 70. -/
theorem volume_always_in_range (fileExists mixer_ok : List Char → Bool)
    (b : Backend) (ops : List EngOp) :
    0 ≤ (run_eng fileExists mixer_ok (AudioEngine.init b) ops).get_volume ∧
    (run_eng fileExists mixer_ok (AudioEngine.init b) ops).get_volume ≤ 100 := by
  suffices h : ∀ e : AudioEngine, 0 ≤ e.volume ∧ e.volume ≤ 100 →
      0 ≤ (run_eng fileExists mixer_ok e ops).volume ∧
      (run_eng fileExists mixer_ok e ops).volume ≤ 100 by
    exact h (AudioEngine.init b)
      ⟨by norm_num [AudioEngine.init], by norm_num [AudioEngine.init]⟩
  induction ops with
  | nil => exact fun e he => he
  | cons op rest ih =>
      intro e he
      exact ih _ (apply_eng_op_volume_preserved fileExists mixer_ok e op he)

def always_true_fs : List Char → Bool := fun _ => true

def never_true_fs : List Char → Bool := fun _ => false

/-- A playing VLC engine that was subsequently stopped, with an end
callback registered — the state in which a stale end-of-track
notification may still be delivered by VLC. -/
def stale_end_engine : AudioEngine :=
  (((AudioEngine.init .vlc).set_on_end_callback.load always_true_fs always_true_fs
      ['s', 'o', 'n', 'g']).1.play true).1.stop

/-- C1 counterexample (claim as stated is false): the code has no
generation counter, and after `load`; `play`; `stop` a stale VLC
end-of-track notification still invokes the end handler
(`_on_vlc_end` calls the callback unconditionally), instead of being
silently discarded as the claim requires. -/
theorem vlc_stale_end_invokes_handler_cex :
    stale_end_engine.is_playing = false ∧ (on_vlc_end stale_end_engine).2 = true := by
  constructor <;> rfl

/-- C1 (amended): there is no generation tagging at all.  The VLC end
callback sets `_is_playing = False` and invokes the handler whenever one
is registered, regardless of any intervening `stop`/`load`; only the
pygame polling thread refrains from firing once `_is_playing` is false. -/
theorem vlc_end_callback_unconditional (e : AudioEngine) (busy : Bool) :
    ((on_vlc_end e).2 = e.has_end_callback ∧ (on_vlc_end e).1.is_playing = false) ∧
    (e.is_playing = false → (pygame_end_poll e busy).2 = false) := by
  refine ⟨⟨rfl, rfl⟩, fun h => ?_⟩
  unfold pygame_end_poll
  rw [if_neg]
  intro hc
  rw [h] at hc
  exact absurd hc.1 (by decide)

/-- C1 witness: the amended theorem applied to the concrete stopped
engine (handler still invoked by the VLC path, not by the pygame poll). -/
theorem vlc_end_callback_unconditional_witness :
    ((on_vlc_end stale_end_engine).2 = stale_end_engine.has_end_callback ∧
     (on_vlc_end stale_end_engine).1.is_playing = false) ∧
    (stale_end_engine.is_playing = false →
     (pygame_end_poll stale_end_engine true).2 = false) :=
  vlc_end_callback_unconditional stale_end_engine true

/-- An engine in the middle of playing a loaded song. -/
def playing_engine : AudioEngine :=
  (((AudioEngine.init .vlc).load always_true_fs always_true_fs
      ['s', 'o', 'n', 'g']).1.play true).1

/-- C7 counterexample (claim as stated is false): `load` of a
non-existent local path does return false, but it does NOT leave the
previous playback state unchanged — `load` calls `self.stop()` before
the existence check, so the previously playing track is stopped
(`_is_playing` flips from true to false). -/
theorem load_missing_stops_playback_cex :
    playing_engine.is_playing = true ∧
    (playing_engine.load never_true_fs always_true_fs ['b', 'a', 'd']).2 = false ∧
    (playing_engine.load never_true_fs always_true_fs ['b', 'a', 'd']).1.is_playing
      = false := by
  refine ⟨rfl, ?_, ?_⟩ <;> rfl

/-- C7 (amended): `load` of a non-existent, non-URL local path returns
false without raising, leaves `_current_path` and `_volume` unchanged,
but stops playback first: `_is_playing` and `_paused` are reset to
false, so the previous playback state is not fully preserved. -/
theorem load_missing_file_returns_false (fileExists mixer_ok : List Char → Bool)
    (e : AudioEngine) (p : List Char)
    (hurl : is_url p = false) (hex : fileExists p = false) :
    (e.load fileExists mixer_ok p).2 = false ∧
    (e.load fileExists mixer_ok p).1.current_path = e.current_path ∧
    (e.load fileExists mixer_ok p).1.volume = e.volume ∧
    (e.load fileExists mixer_ok p).1.is_playing = false ∧
    (e.load fileExists mixer_ok p).1.paused = false := by
  unfold AudioEngine.load
  rw [if_pos ⟨hurl, hex⟩]
  exact ⟨rfl, rfl, rfl, rfl, rfl⟩

/-- C7 witness: the amended theorem applied to the playing engine and a
concrete missing path. -/
theorem load_missing_file_returns_false_witness :
    is_url ['b', 'a', 'd'] = false ∧ never_true_fs ['b', 'a', 'd'] = false ∧
    ((playing_engine.load never_true_fs always_true_fs ['b', 'a', 'd']).2 = false ∧
     (playing_engine.load never_true_fs always_true_fs ['b', 'a', 'd']).1.current_path
       = playing_engine.current_path ∧
     (playing_engine.load never_true_fs always_true_fs ['b', 'a', 'd']).1.volume
       = playing_engine.volume ∧
     (playing_engine.load never_true_fs always_true_fs ['b', 'a', 'd']).1.is_playing
       = false ∧
     (playing_engine.load never_true_fs always_true_fs ['b', 'a', 'd']).1.paused
       = false) :=
  ⟨rfl, rfl, load_missing_file_returns_false never_true_fs always_true_fs
    playing_engine ['b', 'a', 'd'] rfl rfl⟩

/-! ### Download / cache manager, from `src/utils/downloader.py`

The single worker thread drains the FIFO queue one task at a time
(`_process_queue` refuses to start a second download while
`_is_downloading` is set and re-runs itself from the worker's `finally`),
so a batch of enqueued tasks is processed strictly sequentially;
`run_tasks` below folds `_download_song` over the queue in FIFO order.
Network outcomes (`requests.get` / streaming) and the cover fetch are
modelled as explicit per-task oracle values.  `cached_at` ISO-8601
strings are modelled as integer epoch seconds (parsing always succeeds);
`datetime.timedelta.days` is floor division by 86400 seconds.
Callback invocations are recorded as events carrying the task's
callback tag. -/

structure CachedSong where
  id : List Char
  name : List Char
  artist : List Char
  album : List Char
  duration : Int
  local_path : List Char
  source : List Char
  cached_at : Int
  cover_path : Option (List Char)
deriving DecidableEq, Repr

structure DownloadTask where
  song_id : List Char
  url : List Char
  name : List Char
  artist : List Char
  album : List Char
  duration : Int
  cover_url : Option (List Char)
  source : List Char
  has_progress : Bool
  has_complete : Bool
  has_error : Bool
  cb_tag : Nat
deriving DecidableEq, Repr

inductive DlEvent where
  | fetch (url : List Char)
  | coverFetch (url : List Char)
  | saveIndex
  | complete (tag : Nat) (path : List Char)
  | error (tag : Nat)
deriving DecidableEq, Repr

/-- The shared state: the in-memory `_cache_index` (a dict, modelled as
an assoc list in insertion order) and the set of files existing on disk. -/
structure DMState where
  cache_index : List (List Char × CachedSong)
  disk : List (List Char)
deriving DecidableEq, Repr

/-- Python dict lookup `self._cache_index[song_id]` / `in` test. -/
def lookup_entry : List (List Char × CachedSong) → List Char → Option CachedSong
  | [], _ => none
  | (k, v) :: rest, songId => if k = songId then some v else lookup_entry rest songId

/-- Python dict assignment `self._cache_index[song_id] = cached_song`. -/
def set_entry : List (List Char × CachedSong) → List Char → CachedSong →
    List (List Char × CachedSong)
  | [], k, v => [(k, v)]
  | (k', v') :: rest, k, v =>
      if k' = k then (k, v) :: rest else (k', v') :: set_entry rest k v

/-- Source `DownloadManager.is_cached` (lines 79-84): an index entry must exist
and its `local_path` must exist on disk. -/
def is_cached (s : DMState) (song_id : List Char) : Bool :=
  match lookup_entry s.cache_index song_id with
  | some cached => decide (cached.local_path ∈ s.disk)
  | none => false

/-- Source `DownloadManager.get_cached_path` -/
def get_cached_path (s : DMState) (song_id : List Char) : Option (List Char) :=
  if is_cached s song_id then (lookup_entry s.cache_index song_id).map (·.local_path)
  else none

def invalid_chars : List Char := ['<', '>', ':', '\"', '/', '\\', '|', '?', '*']

/-- Source `DownloadManager._safe_filename`: replace invalid characters by `_`
and truncate to 50 characters. -/
def safe_filename (name : List Char) : List Char :=
  (name.map (fun c => if invalid_chars.contains c then '_' else c)).take 50

/-- Source `url.split('?')[0]` -/
def before_query (url : List Char) : List Char := url.takeWhile (fun c => c ≠ '?')

/-- The final path component (`pathlib` name). -/
def basename_of (p : List Char) : List Char :=
  (p.reverse.takeWhile (fun c => c ≠ '/')).reverse

/-- Source `pathlib` suffix of a file name: from the last dot, provided that dot
is neither the leading nor the trailing character. -/
def suffix_of (name : List Char) : List Char :=
  if name.contains '.' then
    let tailLen := (name.reverse.takeWhile (fun c => c ≠ '.')).length
    let i := name.length - 1 - tailLen
    if 0 < i ∧ i < name.length - 1 then name.drop i else []
  else []

def dot_mp3 : List Char := ['.', 'm', 'p', '3']
def dot_flac : List Char := ['.', 'f', 'l', 'a', 'c']
def dot_wav : List Char := ['.', 'w', 'a', 'v']
def dot_m4a : List Char := ['.', 'm', '4', 'a']
def dot_ogg : List Char := ['.', 'o', 'g', 'g']
def dot_aac : List Char := ['.', 'a', 'a', 'c']

/-- Source `DownloadManager._get_extension` (lines 339-347). -/
def get_extension (url : List Char) : List Char :=
  let ext := (suffix_of (basename_of (before_query url))).map Char.toLower
  if ext = dot_mp3 ∨ ext = dot_flac ∨ ext = dot_wav ∨ ext = dot_m4a ∨
     ext = dot_ogg ∨ ext = dot_aac then ext
  else dot_mp3

/-- Source `local_path = self._songs_dir / f"{song_id}_{safe_name}{ext}"`. -/
def local_path_for (cache_dir : List Char) (t : DownloadTask) : List Char :=
  cache_dir ++ ['/', 's', 'o', 'n', 'g', 's', '/'] ++ t.song_id ++ ['_']
    ++ safe_filename (t.artist ++ [' ', '-', ' '] ++ t.name) ++ get_extension t.url

/-- Source `cover_path = self._covers_dir / f"{song_id}{ext}"` in
`_download_cover` (`_get_extension` never returns an empty string, so the
`or ".jpg"` fallback is dead). -/
def cover_path_for (cache_dir : List Char) (song_id cover_url : List Char) : List Char :=
  cache_dir ++ ['/', 'c', 'o', 'v', 'e', 'r', 's', '/'] ++ song_id
    ++ get_extension cover_url

/-- Outcome of the `requests.get` + streaming-write block for one task:
success, or an exception raised after the output file was created, or an
exception raised before it was created. -/
inductive FetchOutcome where
  | ok
  | failAfterWrite
  | failBeforeWrite
deriving DecidableEq, Repr

/-- Source `path.unlink()` -/
def erase_path (disk : List (List Char)) (p : List Char) : List (List Char) :=
  disk.filter (fun q => decide (q ≠ p))

/-- Source `DownloadManager._download_song` (lines 165-231): re-check the cache
and short-circuit with the cached path; otherwise fetch, and on success
optionally fetch the cover (best effort), insert the new `CachedSong`
into the index, save the index, then invoke the completion callback; on
failure delete the partial file (if any) and invoke the error callback,
leaving the index untouched. -/
def download_song (cache_dir : List Char) (now : Int) (s : DMState)
    (t : DownloadTask) (net : FetchOutcome) (cover_ok : Bool) :
    DMState × List DlEvent :=
  if is_cached s t.song_id then
    (s, if t.has_complete then
          [DlEvent.complete t.cb_tag ((get_cached_path s t.song_id).getD [])]
        else [])
  else
    let lp := local_path_for cache_dir t
    match net with
    | .ok =>
        let coverRes : Option (List Char) × List DlEvent :=
          match t.cover_url with
          | some cu =>
              (if cover_ok then some (cover_path_for cache_dir t.song_id cu) else none,
               [DlEvent.coverFetch cu])
          | none => (none, [])
        let disk2 := match coverRes.1 with
          | some cp => cp :: lp :: s.disk
          | none => lp :: s.disk
        let entry : CachedSong :=
          ⟨t.song_id, t.name, t.artist, t.album, t.duration, lp, t.source, now,
           coverRes.1⟩
        (⟨set_entry s.cache_index t.song_id entry, disk2⟩,
         DlEvent.fetch t.url :: coverRes.2 ++ [DlEvent.saveIndex]
           ++ (if t.has_complete then [DlEvent.complete t.cb_tag lp] else []))
    | .failAfterWrite =>
        (⟨s.cache_index, erase_path (lp :: s.disk) lp⟩,
         DlEvent.fetch t.url :: (if t.has_error then [DlEvent.error t.cb_tag] else []))
    | .failBeforeWrite =>
        (⟨s.cache_index, erase_path s.disk lp⟩,
         DlEvent.fetch t.url :: (if t.has_error then [DlEvent.error t.cb_tag] else []))

/-- FIFO, single-worker processing of a queue of tasks, each paired with
its network and cover oracle outcomes. -/
def run_tasks (cache_dir : List Char) (now : Int) (s : DMState) :
    List (DownloadTask × FetchOutcome × Bool) → DMState × List DlEvent
  | [] => (s, [])
  | (t, net, cov) :: rest =>
      ((run_tasks cache_dir now (download_song cache_dir now s t net cov).1 rest).1,
       (download_song cache_dir now s t net cov).2
         ++ (run_tasks cache_dir now (download_song cache_dir now s t net cov).1 rest).2)

/-- Source `DownloadManager.remove_cached` (lines 268-292). -/
def remove_cached (s : DMState) (song_id : List Char) : DMState × Bool :=
  match lookup_entry s.cache_index song_id with
  | none => (s, false)
  | some cached =>
      let d1 := erase_path s.disk cached.local_path
      let d2 := match cached.cover_path with
        | some cp => erase_path d1 cp
        | none => d1
      (⟨s.cache_index.filter (fun kv => decide (kv.1 ≠ song_id)), d2⟩, true)

/-- Source `(cutoff - cached_at).days`: `timedelta.days` is floor division of
the total seconds by 86400. -/
def age_days (now cached_at : Int) : Int := (now - cached_at).fdiv 86400

/-- Source `DownloadManager.cleanup_old` (lines 313-328): collect the ids whose
age in whole days strictly exceeds `max_age_days`, then evict each via
`remove_cached`. -/
def cleanup_old (s : DMState) (now : Int) (max_age_days : Int) : DMState :=
  let to_remove := (s.cache_index.filter
      (fun kv => decide (age_days now kv.2.cached_at > max_age_days))).map (·.1)
  to_remove.foldl (fun st songId => (remove_cached st songId).1) s

def fetch_count (evs : List DlEvent) : Nat :=
  evs.countP (fun e => match e with | .fetch _ => true | _ => false)

/-! #### Workhorse lemmas about `_download_song` -/

theorem lookup_set_entry_self :
    ∀ (idx : List (List Char × CachedSong)) (k : List Char) (v : CachedSong),
      lookup_entry (set_entry idx k v) k = some v
  | [], k, v => by simp [set_entry, lookup_entry]
  | (k', v') :: rest, k, v => by
      unfold set_entry
      split_ifs with h
      · simp [lookup_entry]
      · unfold lookup_entry
        rw [if_neg h]
        exact lookup_set_entry_self rest k v

theorem not_mem_erase_path (d : List (List Char)) (p : List Char) :
    p ∉ erase_path d p := by
  intro h
  have h2 := (List.mem_filter.mp h).2
  simp at h2

theorem download_ok_spec (cache_dir : List Char) (now : Int) (s : DMState)
    (t : DownloadTask) (cov : Bool) (hnc : is_cached s t.song_id = false) :
    ∃ covEvs cp,
      (download_song cache_dir now s t .ok cov).1.cache_index =
        set_entry s.cache_index t.song_id
          ⟨t.song_id, t.name, t.artist, t.album, t.duration,
           local_path_for cache_dir t, t.source, now, cp⟩ ∧
      local_path_for cache_dir t ∈ (download_song cache_dir now s t .ok cov).1.disk ∧
      (download_song cache_dir now s t .ok cov).2 =
        DlEvent.fetch t.url :: (covEvs ++ [DlEvent.saveIndex]
          ++ (if t.has_complete
              then [DlEvent.complete t.cb_tag (local_path_for cache_dir t)] else [])) ∧
      fetch_count covEvs = 0 := by
  unfold download_song
  rw [if_neg (by simp [hnc])]
  cases hcu : t.cover_url with
  | none =>
      simp only [hcu]
      exact ⟨[], none, rfl, by simp, rfl, rfl⟩
  | some cu =>
      simp only [hcu]
      cases cov
      · exact ⟨[DlEvent.coverFetch cu], none, rfl, by simp, rfl, rfl⟩
      · exact ⟨[DlEvent.coverFetch cu], some (cover_path_for cache_dir t.song_id cu),
          rfl, by simp, rfl, rfl⟩

theorem download_ok_cached (cache_dir : List Char) (now : Int) (s : DMState)
    (t : DownloadTask) (cov : Bool) (hnc : is_cached s t.song_id = false) :
    is_cached (download_song cache_dir now s t .ok cov).1 t.song_id = true ∧
    get_cached_path (download_song cache_dir now s t .ok cov).1 t.song_id
      = some (local_path_for cache_dir t) := by
  obtain ⟨covEvs, cp, hidx, hdisk, hevs, hfc⟩ :=
    download_ok_spec cache_dir now s t cov hnc
  have hlook : lookup_entry (download_song cache_dir now s t .ok cov).1.cache_index
      t.song_id = some ⟨t.song_id, t.name, t.artist, t.album, t.duration,
        local_path_for cache_dir t, t.source, now, cp⟩ := by
    rw [hidx]
    exact lookup_set_entry_self s.cache_index t.song_id _
  have hic : is_cached (download_song cache_dir now s t .ok cov).1 t.song_id = true := by
    unfold is_cached
    rw [hlook]
    exact decide_eq_true hdisk
  refine ⟨hic, ?_⟩
  unfold get_cached_path
  rw [hic, if_pos rfl, hlook]
  rfl

/-- C3: on a successful download of an uncached id, the events emitted by
`_download_song` end with the index save immediately followed by the
completion callback (nothing after it), and at that point the entry is in
the index, the downloaded file is on disk, and `get_cached_path` returns
exactly the path handed to the callback. -/
theorem download_success_persists_index_before_complete
    (cache_dir : List Char) (now : Int) (s : DMState) (t : DownloadTask) (cov : Bool)
    (hnc : is_cached s t.song_id = false) (hc : t.has_complete = true) :
    ∃ mid,
      (download_song cache_dir now s t .ok cov).2 =
        DlEvent.fetch t.url :: (mid
          ++ [DlEvent.saveIndex,
              DlEvent.complete t.cb_tag (local_path_for cache_dir t)]) ∧
      is_cached (download_song cache_dir now s t .ok cov).1 t.song_id = true ∧
      local_path_for cache_dir t ∈ (download_song cache_dir now s t .ok cov).1.disk ∧
      get_cached_path (download_song cache_dir now s t .ok cov).1 t.song_id
        = some (local_path_for cache_dir t) := by
  obtain ⟨covEvs, cp, hidx, hdisk, hevs, hfc⟩ :=
    download_ok_spec cache_dir now s t cov hnc
  obtain ⟨hic, hgp⟩ := download_ok_cached cache_dir now s t cov hnc
  refine ⟨covEvs, ?_, hic, hdisk, hgp⟩
  rw [hevs, hc]
  simp

/-- C3 witness: a concrete successful download of an uncached id. -/
theorem download_success_persists_index_before_complete_witness :
    is_cached ⟨[], []⟩ ['i'] = false ∧
    (⟨['i'], ['u'], ['n'], ['a'], [], 0, none, ['s'], false, true, true, 1⟩ :
      DownloadTask).has_complete = true ∧
    (∃ mid,
      (download_song [] 0 ⟨[], []⟩
          ⟨['i'], ['u'], ['n'], ['a'], [], 0, none, ['s'], false, true, true, 1⟩
          .ok false).2 =
        DlEvent.fetch ['u'] :: (mid
          ++ [DlEvent.saveIndex,
              DlEvent.complete 1 (local_path_for []
                ⟨['i'], ['u'], ['n'], ['a'], [], 0, none, ['s'], false, true, true, 1⟩)]) ∧
      is_cached (download_song [] 0 ⟨[], []⟩
          ⟨['i'], ['u'], ['n'], ['a'], [], 0, none, ['s'], false, true, true, 1⟩
          .ok false).1 ['i'] = true ∧
      local_path_for []
          ⟨['i'], ['u'], ['n'], ['a'], [], 0, none, ['s'], false, true, true, 1⟩
        ∈ (download_song [] 0 ⟨[], []⟩
          ⟨['i'], ['u'], ['n'], ['a'], [], 0, none, ['s'], false, true, true, 1⟩
          .ok false).1.disk ∧
      get_cached_path (download_song [] 0 ⟨[], []⟩
          ⟨['i'], ['u'], ['n'], ['a'], [], 0, none, ['s'], false, true, true, 1⟩
          .ok false).1 ['i']
        = some (local_path_for []
          ⟨['i'], ['u'], ['n'], ['a'], [], 0, none, ['s'], false, true, true, 1⟩)) :=
  ⟨rfl, rfl,
   download_success_persists_index_before_complete [] 0 ⟨[], []⟩
     ⟨['i'], ['u'], ['n'], ['a'], [], 0, none, ['s'], false, true, true, 1⟩
     false rfl rfl⟩

/-- C4: if the fetch fails (whether or not a partial file was written),
the media file at the task's target path does not exist afterwards, the
cache index is unchanged, and the only callback event is the error
callback — no completion event is emitted and nothing is raised (the
model is a total function; the source wraps the body in try/except). -/
theorem download_failure_reports_only_error
    (cache_dir : List Char) (now : Int) (s : DMState) (t : DownloadTask)
    (cov : Bool) (net : FetchOutcome)
    (hnc : is_cached s t.song_id = false)
    (hf : net = FetchOutcome.failAfterWrite ∨ net = FetchOutcome.failBeforeWrite)
    (he : t.has_error = true) :
    (download_song cache_dir now s t net cov).1.cache_index = s.cache_index ∧
    local_path_for cache_dir t ∉ (download_song cache_dir now s t net cov).1.disk ∧
    (download_song cache_dir now s t net cov).2 =
      [DlEvent.fetch t.url, DlEvent.error t.cb_tag] ∧
    ∀ tag p, DlEvent.complete tag p ∉ (download_song cache_dir now s t net cov).2 := by
  rcases hf with h | h <;> subst h <;>
  · unfold download_song
    rw [if_neg (by simp [hnc])]
    refine ⟨rfl, not_mem_erase_path _ _, by simp [he], ?_⟩
    intro tag p hmem
    rw [he] at hmem
    simp at hmem

/-- C4 witness: a concrete failing download (partial file written). -/
theorem download_failure_reports_only_error_witness :
    is_cached ⟨[], [['q']]⟩ ['i'] = false ∧
    ((FetchOutcome.failAfterWrite = FetchOutcome.failAfterWrite ∨
      FetchOutcome.failAfterWrite = FetchOutcome.failBeforeWrite) ∧
     (⟨['i'], ['u'], ['n'], ['a'], [], 0, none, ['s'], false, true, true, 1⟩ :
       DownloadTask).has_error = true) ∧
    ((download_song [] 0 ⟨[], [['q']]⟩
        ⟨['i'], ['u'], ['n'], ['a'], [], 0, none, ['s'], false, true, true, 1⟩
        .failAfterWrite false).1.cache_index = [] ∧
     local_path_for [] ⟨['i'], ['u'], ['n'], ['a'], [], 0, none, ['s'], false, true, true, 1⟩
       ∉ (download_song [] 0 ⟨[], [['q']]⟩
        ⟨['i'], ['u'], ['n'], ['a'], [], 0, none, ['s'], false, true, true, 1⟩
        .failAfterWrite false).1.disk ∧
     (download_song [] 0 ⟨[], [['q']]⟩
        ⟨['i'], ['u'], ['n'], ['a'], [], 0, none, ['s'], false, true, true, 1⟩
        .failAfterWrite false).2 = [DlEvent.fetch ['u'], DlEvent.error 1] ∧
     ∀ tag p, DlEvent.complete tag p ∉ (download_song [] 0 ⟨[], [['q']]⟩
        ⟨['i'], ['u'], ['n'], ['a'], [], 0, none, ['s'], false, true, true, 1⟩
        .failAfterWrite false).2) :=
  ⟨rfl, ⟨Or.inl rfl, rfl⟩,
   download_failure_reports_only_error [] 0 ⟨[], [['q']]⟩
     ⟨['i'], ['u'], ['n'], ['a'], [], 0, none, ['s'], false, true, true, 1⟩
     false FetchOutcome.failAfterWrite rfl (Or.inl rfl) rfl⟩

def cex_task1 : DownloadTask :=
  ⟨['i'], ['u'], ['n'], ['a'], [], 0, none, ['s'], false, true, true, 1⟩

def cex_task2 : DownloadTask := { cex_task1 with cb_tag := 2 }

/-- C2 counterexample (claim as stated is false): `download` performs no
deduplication at enqueue time; when the first download of an id fails,
the queued duplicate of the same id performs its own network fetch, so
two fetches occur for that id — the claim's unconditional "at most one
network fetch" is violated. -/
theorem duplicate_download_two_fetches_cex :
    fetch_count (run_tasks [] 0 ⟨[], []⟩
      [(cex_task1, .failBeforeWrite, false), (cex_task2, .failBeforeWrite, false)]).2
      = 2 ∧ ¬ (2 ≤ 1) := by
  constructor
  · rfl
  · decide

/-- C2 (amended): duplicates are coalesced only through the cache
re-check at dequeue time, so this holds only when the first download
succeeds: the duplicate performs no second fetch and both completion
callbacks receive the same local path (if the first download fails, the
duplicate fetches again). -/
theorem download_cached_branch (cache_dir : List Char) (now : Int) (s : DMState)
    (t : DownloadTask) (net : FetchOutcome) (cov : Bool)
    (hic : is_cached s t.song_id = true) (hc : t.has_complete = true) :
    download_song cache_dir now s t net cov =
      (s, [DlEvent.complete t.cb_tag ((get_cached_path s t.song_id).getD [])]) := by
  unfold download_song
  rw [if_pos hic, if_pos hc]

theorem duplicate_download_single_fetch_on_success
    (cache_dir : List Char) (now : Int) (s : DMState) (t1 t2 : DownloadTask)
    (net2 : FetchOutcome) (cov1 cov2 : Bool)
    (hid : t2.song_id = t1.song_id)
    (hnc : is_cached s t1.song_id = false)
    (hc1 : t1.has_complete = true) (hc2 : t2.has_complete = true) :
    fetch_count (run_tasks cache_dir now s [(t1, .ok, cov1), (t2, net2, cov2)]).2 = 1 ∧
    ∃ p, DlEvent.complete t1.cb_tag p
           ∈ (run_tasks cache_dir now s [(t1, .ok, cov1), (t2, net2, cov2)]).2 ∧
         DlEvent.complete t2.cb_tag p
           ∈ (run_tasks cache_dir now s [(t1, .ok, cov1), (t2, net2, cov2)]).2 := by
  obtain ⟨covEvs, cp, hidx, hdisk, hevs, hfc⟩ :=
    download_ok_spec cache_dir now s t1 cov1 hnc
  obtain ⟨hic, hgp⟩ := download_ok_cached cache_dir now s t1 cov1 hnc
  have hic2 : is_cached (download_song cache_dir now s t1 .ok cov1).1 t2.song_id
      = true := by
    rw [hid]
    exact hic
  have hevs2 : (download_song cache_dir now
      (download_song cache_dir now s t1 .ok cov1).1 t2 net2 cov2).2 =
      [DlEvent.complete t2.cb_tag (local_path_for cache_dir t1)] := by
    rw [download_cached_branch cache_dir now
      (download_song cache_dir now s t1 .ok cov1).1 t2 net2 cov2 hic2 hc2]
    rw [hid, hgp]
    rfl
  have hruns : (run_tasks cache_dir now s [(t1, .ok, cov1), (t2, net2, cov2)]).2 =
      (download_song cache_dir now s t1 .ok cov1).2
        ++ ((download_song cache_dir now
              (download_song cache_dir now s t1 .ok cov1).1 t2 net2 cov2).2 ++ []) :=
    rfl
  rw [hruns, hevs, hevs2, hc1]
  constructor
  · simp only [fetch_count, List.countP_append, List.countP_cons, List.countP_nil]
    have : List.countP
        (fun e => match e with | DlEvent.fetch _ => true | _ => false) covEvs = 0 := hfc
    simp [this]
  · refine ⟨local_path_for cache_dir t1, ?_, ?_⟩ <;> simp

/-- C2 witness: two concrete same-id tasks, the first succeeding. -/
theorem duplicate_download_single_fetch_on_success_witness :
    (cex_task2.song_id = cex_task1.song_id ∧ is_cached ⟨[], []⟩ cex_task1.song_id = false ∧
     cex_task1.has_complete = true ∧ cex_task2.has_complete = true) ∧
    (fetch_count (run_tasks [] 0 ⟨[], []⟩
        [(cex_task1, .ok, false), (cex_task2, .ok, false)]).2 = 1 ∧
     ∃ p, DlEvent.complete cex_task1.cb_tag p
            ∈ (run_tasks [] 0 ⟨[], []⟩
                [(cex_task1, .ok, false), (cex_task2, .ok, false)]).2 ∧
          DlEvent.complete cex_task2.cb_tag p
            ∈ (run_tasks [] 0 ⟨[], []⟩
                [(cex_task1, .ok, false), (cex_task2, .ok, false)]).2) :=
  ⟨⟨rfl, rfl, rfl, rfl⟩,
   duplicate_download_single_fetch_on_success [] 0 ⟨[], []⟩ cex_task1 cex_task2
     .ok false false rfl rfl rfl rfl⟩

/-! #### C9: `cleanup_old` -/

theorem remove_cached_index (st : DMState) (songId : List Char) :
    (remove_cached st songId).1.cache_index =
      st.cache_index.filter (fun kv => decide (kv.1 ≠ songId)) := by
  unfold remove_cached
  cases h : lookup_entry st.cache_index songId with
  | none =>
      dsimp only
      have : ∀ idx : List (List Char × CachedSong),
          lookup_entry idx songId = none →
          idx.filter (fun kv => decide (kv.1 ≠ songId)) = idx := by
        intro idx
        induction idx with
        | nil => intro _; rfl
        | cons kv rest ih =>
            intro hl
            obtain ⟨k, v⟩ := kv
            unfold lookup_entry at hl
            by_cases hk : k = songId
            · rw [if_pos hk] at hl
              exact absurd hl (by simp)
            · rw [if_neg hk] at hl
              simp only [List.filter_cons]
              rw [if_pos (by simpa using hk)]
              rw [ih hl]
      rw [this st.cache_index h]
  | some c => rfl

theorem cleanup_fold_index (l : List (List Char)) :
    ∀ st : DMState,
      (l.foldl (fun st songId => (remove_cached st songId).1) st).cache_index =
        st.cache_index.filter (fun kv => decide (kv.1 ∉ l)) := by
  induction l with
  | nil =>
      intro st
      simp
  | cons x xs ih =>
      intro st
      rw [List.foldl_cons, ih, remove_cached_index]
      rw [List.filter_filter]
      apply List.filter_congr
      intro kv _
      by_cases h1 : kv.1 = x <;> by_cases h2 : kv.1 ∈ xs <;>
        simp [h1, h2]

theorem lookup_filter_notmem (r : List (List Char)) (songId : List Char) :
    ∀ idx : List (List Char × CachedSong),
      lookup_entry (idx.filter (fun kv => decide (kv.1 ∉ r))) songId =
        if songId ∈ r then none else lookup_entry idx songId := by
  intro idx
  induction idx with
  | nil =>
      show lookup_entry [] songId = if songId ∈ r then none else lookup_entry [] songId
      split_ifs <;> rfl
  | cons kv rest ih =>
      obtain ⟨k, v⟩ := kv
      show lookup_entry (List.filter (fun kv => decide (kv.1 ∉ r)) ((k, v) :: rest)) songId
        = if songId ∈ r then none else lookup_entry ((k, v) :: rest) songId
      rw [List.filter_cons]
      by_cases hk : k ∈ r
      · rw [if_neg (by simpa using hk), ih]
        by_cases hs : songId ∈ r
        · rw [if_pos hs, if_pos hs]
        · rw [if_neg hs, if_neg hs]
          have hne : ¬ (k = songId) := fun he => hs (he ▸ hk)
          show lookup_entry rest songId
            = if k = songId then some v else lookup_entry rest songId
          rw [if_neg hne]
      · rw [if_pos (by simpa using hk)]
        show (if k = songId then some v
              else lookup_entry (rest.filter (fun kv => decide (kv.1 ∉ r))) songId)
          = if songId ∈ r then none
            else if k = songId then some v else lookup_entry rest songId
        by_cases he : k = songId
        · subst he
          rw [if_pos rfl, if_pos rfl, if_neg hk]
        · rw [if_neg he, ih, if_neg he]

theorem mem_toremove_iff (now days : Int) (songId : List Char) (c : CachedSong) :
    ∀ idx : List (List Char × CachedSong),
      (idx.map (·.1)).Nodup →
      lookup_entry idx songId = some c →
      (songId ∈ (idx.filter
          (fun kv => decide (age_days now kv.2.cached_at > days))).map (·.1) ↔
        age_days now c.cached_at > days) := by
  intro idx
  induction idx with
  | nil =>
      intro _ h
      exact Option.noConfusion h
  | cons kv rest ih =>
      intro hnd hl
      obtain ⟨k, v⟩ := kv
      rw [List.map_cons] at hnd
      obtain ⟨hnd1, hnd2⟩ := List.nodup_cons.mp hnd
      unfold lookup_entry at hl
      rw [List.filter_cons]
      by_cases hk : k = songId
      · rw [if_pos hk] at hl
        have hcv : v = c := by
          exact Option.some.inj hl
        subst hcv
        subst hk
        by_cases hage : age_days now v.cached_at > days
        · rw [if_pos (decide_eq_true hage), List.map_cons]
          exact ⟨fun _ => hage, fun _ => List.mem_cons_self _ _⟩
        · rw [if_neg (fun hdec => hage (of_decide_eq_true hdec))]
          constructor
          · intro hmem
            exfalso
            apply hnd1
            obtain ⟨kv2, hkv2mem, hkv2eq⟩ := List.mem_map.mp hmem
            exact List.mem_map.mpr ⟨kv2, List.mem_of_mem_filter hkv2mem, hkv2eq⟩
          · intro h
            exact absurd h hage
      · rw [if_neg hk] at hl
        by_cases hage : age_days now v.cached_at > days
        · rw [if_pos (decide_eq_true hage), List.map_cons]
          simp only [List.mem_cons]
          constructor
          · intro h
            rcases h with h | h
            · exact absurd h.symm hk
            · exact (ih hnd2 hl).mp h
          · intro h
            exact Or.inr ((ih hnd2 hl).mpr h)
        · rw [if_neg (fun hdec => hage (of_decide_eq_true hdec))]
          exact ih hnd2 hl

/-- A boundary state for C9: a single entry cached at epoch 0. -/
def boundary_entry : CachedSong :=
  ⟨['a'], ['n'], ['r'], [], 0, ['p'], ['s'], 0, none⟩

def boundary_state : DMState := ⟨[(['a'], boundary_entry)], [['p']]⟩

/-- C9 counterexample (claim as stated is false): with `days = 30` and
`now` 30 days + 1 hour past the entry's `cached_at`, the entry's
timestamp precedes now − 30 days, so the claim requires eviction; but
`cleanup_old` compares `timedelta.days` (whole days, floored) with a
strict `>`, computes 30 > 30 = false, and keeps the entry. -/
theorem cleanup_old_keeps_boundary_entry_cex :
    lookup_entry (cleanup_old boundary_state (30 * 86400 + 3600) 30).cache_index ['a']
      = some boundary_entry ∧
    (0 : Int) < (30 * 86400 + 3600) - 30 * 86400 := by
  constructor
  · rfl
  · decide

/-- C9 (amended): `cleanup_old` evicts, via `remove_cached` (it is
defined as a fold of `remove_cached` over the collected ids), exactly
those entries whose age in whole days — `(now − cached_at) // 86400`
seconds, i.e. `timedelta.days` — strictly exceeds `max_age_days`;
entries whose timestamp precedes now − days by less than a full further
day are kept. -/
theorem cleanup_old_evicts_iff (s : DMState) (now days : Int) (songId : List Char)
    (hnd : (s.cache_index.map (·.1)).Nodup) :
    (∀ c, lookup_entry s.cache_index songId = some c →
      lookup_entry (cleanup_old s now days).cache_index songId =
        (if age_days now c.cached_at > days then none else some c)) ∧
    (lookup_entry s.cache_index songId = none →
      lookup_entry (cleanup_old s now days).cache_index songId = none) := by
  have hbase : lookup_entry (cleanup_old s now days).cache_index songId =
      if songId ∈ (s.cache_index.filter
          (fun kv => decide (age_days now kv.2.cached_at > days))).map (·.1)
      then none else lookup_entry s.cache_index songId := by
    unfold cleanup_old
    rw [cleanup_fold_index, lookup_filter_notmem]
  constructor
  · intro c hc
    rw [hbase]
    rw [if_congr ((mem_toremove_iff now days songId c s.cache_index hnd hc)) rfl rfl]
    by_cases hage : age_days now c.cached_at > days
    · rw [if_pos hage, if_pos hage]
    · rw [if_neg hage, if_neg hage, hc]
  · intro hnone
    rw [hbase, hnone]
    split_ifs <;> rfl

/-- C9 witness: the amended theorem applied to the boundary state — the
boundary entry has age exactly 30 whole days and is kept. -/
theorem cleanup_old_evicts_iff_witness :
    (boundary_state.cache_index.map (·.1)).Nodup ∧
    lookup_entry boundary_state.cache_index ['a'] = some boundary_entry ∧
    lookup_entry (cleanup_old boundary_state (30 * 86400 + 3600) 30).cache_index ['a']
      = (if age_days (30 * 86400 + 3600) boundary_entry.cached_at > 30
         then none else some boundary_entry) :=
  ⟨by decide, rfl,
   (cleanup_old_evicts_iff boundary_state (30 * 86400 + 3600) 30 ['a'] (by decide)).1
     boundary_entry rfl⟩

/-! ### Lyrics parser, from `src/api/lyrics_api.py`

`LyricsParser.TIME_PATTERN` is the regex
`\[(\d{1,2}):(\d{2})(?:[.:](\d{1,3}))?\]`; `try_match` below implements
matching that pattern at the head of a character list.  The regex's
greedy quantifiers with backtracking collapse to greedy-without-
backtracking here: after `\d{1,2}` the pattern requires `:` (not a
digit), and after `[.:](\d{1,3})` it requires `]` (not a digit), so
whenever a shorter digit run would succeed the longer one succeeds too;
conversely if the maximal run (capped at 2 resp. 3) fails, every shorter
run fails on the very next character, which is then a digit.
`scan_aux` implements `finditer` (scan left to right, resume after each
non-overlapping match); its fuel is the input length, which is never
exhausted since every step consumes at least one character. -/

structure LyricLine where
  time_ms : Nat
  text : List Char
deriving DecidableEq, Repr

structure TsMatch where
  mins : List Char
  secs : List Char
  frac : Option (Char × List Char)
deriving DecidableEq, Repr

/-- Source `match.group(0)`: the full matched token, reconstructed. -/
def TsMatch.full (m : TsMatch) : List Char :=
  '[' :: m.mins ++ ':' :: m.secs
    ++ (match m.frac with
        | none => []
        | some (sep, f) => sep :: f)
    ++ [']']

def try_match : List Char → Option (TsMatch × List Char)
  | [] => none
  | c :: rest =>
      if c = '[' then
        let mins := (rest.takeWhile Char.isDigit).take 2
        if mins.isEmpty then none
        else
          match rest.drop mins.length with
          | c2 :: r2 =>
              if c2 = ':' then
                match r2 with
                | d1 :: d2 :: r3 =>
                    if d1.isDigit ∧ d2.isDigit then
                      match r3 with
                      | c3 :: r4 =>
                          if c3 = ']' then some (⟨mins, [d1, d2], none⟩, r4)
                          else if c3 = '.' ∨ c3 = ':' then
                            let fd := (r4.takeWhile Char.isDigit).take 3
                            if fd.isEmpty then none
                            else
                              match r4.drop fd.length with
                              | c5 :: r5 =>
                                  if c5 = ']' then
                                    some (⟨mins, [d1, d2], some (c3, fd)⟩, r5)
                                  else none
                              | [] => none
                          else none
                      | [] => none
                    else none
                | _ => none
              else none
          | [] => none
      else none

/-- Source `TIME_PATTERN.finditer`: fuelled scan; fuel = input length suffices
because a successful match consumes at least six characters and a failed
position advances by one. -/
def scan_aux : Nat → List Char → List TsMatch
  | 0, _ => []
  | _ + 1, [] => []
  | n + 1, c :: cs =>
      match try_match (c :: cs) with
      | some (m, rest) => m :: scan_aux n rest
      | none => scan_aux n cs

def find_timestamps (l : List Char) : List TsMatch := scan_aux l.length l

/-- Source `int(...)` on a digit string. -/
def digits_to_nat (ds : List Char) : Nat :=
  ds.foldl (fun a c => a * 10 + (c.toNat - '0'.toNat)) 0

/-- The millisecond branch of `LyricsParser.parse` (lines 54-62):
2 digits → ×10, 3 digits → exact, anything else → `int(ms_str[:3])`. -/
def ms_of_frac : Option (Char × List Char) → Nat
  | none => 0
  | some (_, f) =>
      if f.length = 2 then digits_to_nat f * 10
      else if f.length = 3 then digits_to_nat f
      else digits_to_nat (f.take 3)

/-- Source `time_ms = (minutes * 60 + seconds) * 1000 + milliseconds` (line 64). -/
def time_of_match (m : TsMatch) : Nat :=
  (digits_to_nat m.mins * 60 + digits_to_nat m.secs) * 1000 + ms_of_frac m.frac

/-- Source `text.replace(old, '', 1)`: delete the first occurrence of `pat`. -/
def remove_first_occ (pat : List Char) : List Char → List Char
  | [] => []
  | c :: cs =>
      if pat.isPrefixOf (c :: cs) then (c :: cs).drop pat.length
      else c :: remove_first_occ pat cs

/-- Python `str.strip()` whitespace (ASCII part). -/
def py_is_space (c : Char) : Bool :=
  c = ' ' ∨ c = '\t' ∨ c = '\n' ∨ c = '\r' ∨ c = Char.ofNat 11 ∨ c = Char.ofNat 12

def py_strip (l : List Char) : List Char :=
  ((l.dropWhile py_is_space).reverse.dropWhile py_is_space).reverse

/-- Source `lrc_content.split('\n')`. -/
def split_on_nl : List Char → List (List Char)
  | [] => [[]]
  | c :: cs =>
      match split_on_nl cs with
      | [] => [[c]]
      | h :: t => if c = '\n' then [] :: h :: t else (c :: h) :: t

/-- The per-line body of `LyricsParser.parse` (lines 39-80): strip, find
all timestamps, strip the matched tokens out of the text, drop metadata
tag lines (`[`…`:`…), and emit one `LyricLine` per timestamp when the
remaining text is non-empty. -/
def parse_line (raw : List Char) : List LyricLine :=
  let line := py_strip raw
  if line.isEmpty then []
  else
    let ms := find_timestamps line
    let text := py_strip (ms.foldl (fun t m => remove_first_occ m.full t) line)
    if text.head? = some '[' ∧ text.contains ':' then []
    else if text.isEmpty then []
    else (ms.map time_of_match).map (fun t => ⟨t, text⟩)

/-- Stable insertion (equal keys keep source order), modelling Python's
stable `list.sort(key=...)`. -/
def insert_sorted (x : LyricLine) : List LyricLine → List LyricLine
  | [] => [x]
  | y :: ys => if y.time_ms < x.time_ms then y :: insert_sorted x ys else x :: y :: ys

def sort_by_time (l : List LyricLine) : List LyricLine :=
  l.foldr insert_sorted []

/-- Source `LyricsParser.parse`. -/
def parse (s : List Char) : List LyricLine :=
  if s.isEmpty then []
  else sort_by_time (List.join ((split_on_nl s).map parse_line))

/-- Well-formedness of a match of `TIME_PATTERN`: group shapes as the
regex guarantees them. -/
def WfMatch (m : TsMatch) : Prop :=
  (1 ≤ m.mins.length ∧ m.mins.length ≤ 2 ∧ ∀ c ∈ m.mins, c.isDigit = true) ∧
  (m.secs.length = 2 ∧ ∀ c ∈ m.secs, c.isDigit = true) ∧
  (match m.frac with
   | none => True
   | some (sep, f) =>
       (sep = '.' ∨ sep = ':') ∧ 1 ≤ f.length ∧ f.length ≤ 3 ∧
       ∀ c ∈ f, c.isDigit = true)

theorem digits_take_takeWhile (l : List Char) (n : Nat) :
    ∀ c ∈ (l.takeWhile Char.isDigit).take n, c.isDigit = true := by
  intro c hc
  exact List.mem_takeWhile_imp (List.take_subset n _ hc)

theorem length_take_le (l : List Char) (n : Nat) : (l.take n).length ≤ n := by
  rw [List.length_take]
  exact min_le_left _ _

theorem one_le_of_not_isEmpty {l : List Char} (h : ¬ l.isEmpty = true) :
    1 ≤ l.length := by
  cases l with
  | nil => exact absurd rfl h
  | cons a as => simp

theorem secs_digits {d1 d2 : Char} (h4 : d1.isDigit = true ∧ d2.isDigit = true) :
    ∀ x ∈ [d1, d2], x.isDigit = true := by
  intro x hx
  rcases List.mem_cons.mp hx with h | hx
  · exact h ▸ h4.1
  · rcases List.mem_cons.mp hx with h | hx
    · exact h ▸ h4.2
    · exact absurd hx (List.not_mem_nil x)

theorem try_match_wf (l : List Char) (m : TsMatch) (r : List Char)
    (h : try_match l = some (m, r)) : WfMatch m := by
  match l with
  | [] => exact Option.noConfusion h
  | c :: rest =>
    simp only [try_match] at h
    split_ifs at h with h1 h2
    split at h
    · rename_i c2 r2 heq
      split_ifs at h with h3
      split at h
      · rename_i d1 d2 r3 heq2
        split_ifs at h with h4
        split at h
        · rename_i c3 r4 heq3
          split_ifs at h with h5 h6 h7
          · injection h with hpair
            injection hpair with hm hr
            subst hm
            exact ⟨⟨one_le_of_not_isEmpty h2, length_take_le _ _,
                digits_take_takeWhile _ _⟩, ⟨rfl, secs_digits h4⟩, trivial⟩
          · split at h
            · rename_i c5 r5 heq4
              split_ifs at h with h8
              injection h with hpair
              injection hpair with hm hr
              subst hm
              exact ⟨⟨one_le_of_not_isEmpty h2, length_take_le _ _,
                  digits_take_takeWhile _ _⟩, ⟨rfl, secs_digits h4⟩,
                h6, one_le_of_not_isEmpty h7, length_take_le _ _,
                digits_take_takeWhile _ _⟩
            · exact Option.noConfusion h
        · exact Option.noConfusion h
      · exact Option.noConfusion h
    · exact Option.noConfusion h

theorem scan_aux_wf : ∀ (n : Nat) (l : List Char) (m : TsMatch),
    m ∈ scan_aux n l → WfMatch m := by
  intro n
  induction n with
  | zero =>
      intro l m hm
      exact absurd hm (List.not_mem_nil m)
  | succ n ih =>
      intro l m hm
      cases l with
      | nil => exact absurd hm (List.not_mem_nil m)
      | cons c cs =>
          rw [scan_aux] at hm
          rcases htm : try_match (c :: cs) with _ | ⟨m2, rest⟩
          · rw [htm] at hm
            exact ih cs m hm
          · rw [htm] at hm
            rcases List.mem_cons.mp hm with he | hm2
            · exact he ▸ try_match_wf (c :: cs) m2 rest htm
            · exact ih rest m hm2

theorem find_timestamps_wf (l : List Char) (m : TsMatch)
    (hm : m ∈ find_timestamps l) : WfMatch m :=
  scan_aux_wf l.length l m hm

theorem mem_insert_sorted (a x : LyricLine) :
    ∀ l : List LyricLine, a ∈ insert_sorted x l ↔ a = x ∨ a ∈ l := by
  intro l
  induction l with
  | nil => simp [insert_sorted]
  | cons y ys ih =>
      unfold insert_sorted
      split_ifs with hc
      · rw [List.mem_cons, ih, List.mem_cons]
        tauto
      · rw [List.mem_cons, List.mem_cons]

theorem mem_sort_by_time (a : LyricLine) :
    ∀ l : List LyricLine, a ∈ sort_by_time l ↔ a ∈ l := by
  intro l
  induction l with
  | nil => exact Iff.rfl
  | cons x xs ih =>
      show a ∈ insert_sorted x (sort_by_time xs) ↔ _
      rw [mem_insert_sorted, ih, List.mem_cons]

theorem parse_line_time (raw : List Char) (l : LyricLine)
    (hl : l ∈ parse_line raw) :
    ∃ m, WfMatch m ∧ l.time_ms = time_of_match m := by
  unfold parse_line at hl
  dsimp only at hl
  split_ifs at hl with h1 h2 h3
  · exact absurd hl (List.not_mem_nil l)
  · exact absurd hl (List.not_mem_nil l)
  · exact absurd hl (List.not_mem_nil l)
  · obtain ⟨t, ht, he⟩ := List.mem_map.mp hl
    obtain ⟨m, hmm, hte⟩ := List.mem_map.mp ht
    refine ⟨m, find_timestamps_wf _ m hmm, ?_⟩
    rw [← he]
    exact hte.symm

/-- The millisecond scale demanded by the claim's wording: absent → 0,
1-2 digits → value × 10, 3 digits → exact, more than 3 digits → first 3
digits. -/
def ms_spec_claim : Option (Char × List Char) → Nat
  | none => 0
  | some (_, f) =>
      if 1 ≤ f.length ∧ f.length ≤ 2 then digits_to_nat f * 10
      else if f.length = 3 then digits_to_nat f
      else digits_to_nat (f.take 3)

/-- The amended millisecond scale matching the code: absent → 0, exactly
one digit → the value taken as milliseconds directly (not × 10), 2
digits → value × 10, 3 digits → exact; fields longer than 3 digits never
match the pattern. -/
def ms_spec_amended : Option (Char × List Char) → Nat
  | none => 0
  | some (_, f) =>
      if f.length = 1 then digits_to_nat f
      else if f.length = 2 then digits_to_nat f * 10
      else digits_to_nat (f.take 3)

theorem time_match_eq_amended (m : TsMatch) (hwf : WfMatch m) :
    time_of_match m =
      (digits_to_nat m.mins * 60 + digits_to_nat m.secs) * 1000
        + ms_spec_amended m.frac := by
  unfold time_of_match
  congr 1
  obtain ⟨_, _, hfrac⟩ := hwf
  cases hf : m.frac with
  | none => rfl
  | some sf =>
      obtain ⟨sep, f⟩ := sf
      rw [hf] at hfrac
      obtain ⟨_, hf1, hf3, _⟩ := hfrac
      simp only [ms_of_frac, ms_spec_amended]
      have : f.length = 1 ∨ f.length = 2 ∨ f.length = 3 := by omega
      rcases this with h | h | h
      · rw [if_neg (by omega), if_neg (by omega), if_pos h]
        rw [List.take_of_length_le (by omega)]
      · rw [if_pos h, if_neg (by omega), if_pos h]
      · rw [if_neg (by omega), if_pos h, if_neg (by omega), if_neg (by omega)]
        rw [List.take_of_length_le (by omega)]

def cex_lyric_input : List Char :=
  ['[', '0', '0', ':', '0', '1', '.', '5', ']', 'H', 'e', 'l', 'l', 'o']

/-- C5 counterexample (claim as stated is false): for the one-digit
fraction token `[00:01.5]` the claim's rule "1-2 digits → value × 10"
demands `(0*60+1)*1000 + 5*10 = 1050` ms, but the code's `else` branch
computes `int("5"[:3]) = 5`, so the emitted line carries 1005 ms. -/
theorem parse_one_digit_fraction_cex :
    parse cex_lyric_input = [⟨1005, ['H', 'e', 'l', 'l', 'o']⟩] ∧
    (0 * 60 + 1) * 1000 + ms_spec_claim (some ('.', ['5'])) = 1050 ∧
    (1005 : Nat) ≠ 1050 := by
  refine ⟨?_, rfl, ?_⟩
  · rfl
  · decide

/-- Specification-side per-token time (the amended claim's words): for a
matched timestamp token, `time_ms = (minutes*60 + seconds)*1000 + ms`
with the millisecond field scaled by its digit width as in
`ms_spec_amended`. -/
def spec_time_of_match (m : TsMatch) : Nat :=
  (digits_to_nat m.mins * 60 + digits_to_nat m.secs) * 1000 + ms_spec_amended m.frac

/-- Specification-side line parse: identical pipeline (strip, scan for
`TIME_PATTERN` tokens, strip tokens from the text, drop metadata lines,
one line per token), but each emitted line's time is computed from its
own token's groups by the amended rule `spec_time_of_match`. -/
def parse_line_spec (raw : List Char) : List LyricLine :=
  let line := py_strip raw
  if line.isEmpty then []
  else
    let ms := find_timestamps line
    let text := py_strip (ms.foldl (fun t m => remove_first_occ m.full t) line)
    if text.head? = some '[' ∧ text.contains ':' then []
    else if text.isEmpty then []
    else (ms.map spec_time_of_match).map (fun t => ⟨t, text⟩)

/-- Specification-side parse, to be compared with the source's `parse`:
the same splitting and stable sort, with every token's time given by the
amended formula. -/
def parse_spec (s : List Char) : List LyricLine :=
  if s.isEmpty then []
  else sort_by_time (List.join ((split_on_nl s).map parse_line_spec))

theorem parse_line_eq_spec (raw : List Char) :
    parse_line raw = parse_line_spec raw := by
  unfold parse_line parse_line_spec
  dsimp only
  split_ifs with h1 h2 h3
  · rfl
  · rfl
  · rfl
  · have hms : (find_timestamps (py_strip raw)).map time_of_match
        = (find_timestamps (py_strip raw)).map spec_time_of_match :=
      List.map_congr_left
        (fun m hm => time_match_eq_amended m (find_timestamps_wf _ m hm))
    rw [hms]

/-- C5 (amended): `parse` coincides, on every input, with the
specification-side `parse_spec`, in which each emitted lyric line's time
is computed from its own matched token's groups as
`(minutes*60 + seconds)*1000 + ms`, with the millisecond field scaled by
its digit width: absent → 0, exactly 2 digits → value × 10
(centiseconds), exactly 3 digits → exact milliseconds, and exactly
1 digit → the value taken as milliseconds directly (the code's `else`
branch, not × 10); fields of more than 3 digits never match
`TIME_PATTERN` (the regex caps the group at 3 digits).  Any deviation
from this per-token scaling on any reachable token would break this
equality (the one-digit × 10 rule of the original claim already fails on
`cex_lyric_input`). -/
theorem parse_time_formula (s : List Char) : parse s = parse_spec s := by
  unfold parse parse_spec
  split_ifs with h
  · rfl
  · have hl : (split_on_nl s).map parse_line = (split_on_nl s).map parse_line_spec :=
      List.map_congr_left (fun l _ => parse_line_eq_spec l)
    rw [hl]

def example_lrc : List Char :=
  ['[', '0', '0', ':', '0', '1', '.', '2', '0', ']', 'H', 'e', 'l', 'l', 'o', '\n',
   '[', '0', '0', ':', '0', '3', '.', '0', '0', ']', 'W', 'o', 'r', 'l', 'd']

/-- Sanity evaluation: the spec's own example
`[00:01.20]Hello\n[00:03.00]World` parses to (1200, Hello) and
(3000, World), on both the source-side and the spec-side parse. -/
theorem parse_example_lrc :
    parse example_lrc =
      [⟨1200, ['H', 'e', 'l', 'l', 'o']⟩, ⟨3000, ['W', 'o', 'r', 'l', 'd']⟩] ∧
    parse_spec example_lrc =
      [⟨1200, ['H', 'e', 'l', 'l', 'o']⟩, ⟨3000, ['W', 'o', 'r', 'l', 'd']⟩] := by
  constructor <;> rfl

end MiniPlayer
